import Mathlib

/-!
# Arcade shooter (`src/main.js`): shallow embedding of the simulation core

Conventions of the embedding.

* JavaScript numbers that hold coordinates, sizes and speeds are rationals (`ℚ`, exact
  arithmetic in place of doubles); counters (`score`, `health`, `powerUpCount`) and
  millisecond timestamps are integers.  The one place where the rounding of doubles
  decides what is stated, the horizontal motion of zigzag enemies, has a second
  embedding, `enemyStepRounded`, in which every arithmetic result passes through a
  rounding `fl`.
* An object stored in an array is a value of the list; a callback that mutates the
  object it was handed writes it back at its index (`List.set`), and
  `arr.splice(i, 1)` is `List.eraseIdx i`.
* The script's global variables are the fields of `State`; every function of the
  script becomes a function `State → State`.  `WIDTH` and `HEIGHT` (read from the
  canvas) are parameters `W H`.
* `Date.now()` is a parameter `now`; `Math.random()` is a parameter (the raw draw
  `r`, or directly the index `Math.floor(Math.random() * 3)` as a `Fin 3`).
* Rendering and DOM text updates have no effect on the state and are left out;
  `localStorage` is the field `stored`.
* The script declares `shoot`, `updateBullets`, `spawnPowerUp` and
  `updatePowerUpStatus` twice.  In a classic script the later declaration is the
  one bound to the name, so the later one keeps the plain name here and the
  earlier (shadowed) one carries the line number of its declaration as a suffix.
-/

/-! ## Constants -/

def PLAYER_WIDTH : ℚ := 40
def PLAYER_HEIGHT : ℚ := 40
def PLAYER_SPEED : ℚ := 5
def BULLET_SPEED : ℚ := 7
def POWERUP_DURATION : Int := 8000

/-! ## Data model -/

/-- The values `bulletMode` takes: `'normal'`, `'spread'`, `'bounce'`. -/
inductive Mode where
  | normal
  | spread
  | bounce
  deriving DecidableEq, Repr

/-- The `pattern` of an enemy: `'straight'`, `'zigzag'`, `'fast'`. -/
inductive Pattern where
  | straight
  | zigzag
  | fast
  deriving DecidableEq, Repr

/-- The `player` object. -/
structure Player where
  x : ℚ
  y : ℚ
  width : ℚ
  height : ℚ
  speed : ℚ
  canShoot : Bool
  shootCooldown : Int
  lastShotTime : Int
  deriving DecidableEq

/-- A bullet object.  The later `shoot` and the companions create bullets without
`dx`, `dy`, `bounces` (`none` stands for the absent property). -/
structure Bullet where
  x : ℚ
  y : ℚ
  width : ℚ
  height : ℚ
  speed : ℚ
  dx : Option ℚ
  dy : Option ℚ
  bounces : Option Int
  deriving DecidableEq

/-- An enemy object. -/
structure Enemy where
  x : ℚ
  y : ℚ
  size : ℚ
  speed : ℚ
  color : String
  pattern : Pattern
  zigzagDirection : ℚ
  deriving DecidableEq

/-- A power-up object; an absent `isHealth` / `isCompanion` is `false`, an absent
`type` is `none`. -/
structure PowerUp where
  x : ℚ
  y : ℚ
  size : ℚ
  speed : ℚ
  isHealth : Bool
  isCompanion : Bool
  type : Option Mode
  deriving DecidableEq

/-- An entry of `companionTypes`. -/
structure CompanionType where
  color : String
  shootInterval : Int
  bulletSpeed : ℚ
  bulletWidth : ℚ
  bulletHeight : ℚ
  offsetX : ℚ
  deriving DecidableEq

/-- A companion object. -/
structure Companion where
  x : ℚ
  y : ℚ
  width : ℚ
  height : ℚ
  color : String
  shootInterval : Int
  bulletSpeed : ℚ
  bulletWidth : ℚ
  bulletHeight : ℚ
  offsetX : ℚ
  lastShotTime : Int
  bullets : List Bullet
  endTime : Int
  deriving DecidableEq

/-- An explosion object. -/
structure Explosion where
  x : ℚ
  y : ℚ
  radius : ℚ
  startTime : Int
  duration : Int
  deriving DecidableEq

/-- The global variables of the script (plus the persisted `highScore` entry of
`localStorage`, `stored`). -/
structure State where
  keys : String → Bool
  bullets : List Bullet
  enemies : List Enemy
  powerUps : List PowerUp
  companions : List Companion
  explosions : List Explosion
  score : Int
  highScore : Int
  health : Int
  powerUpCount : Int
  powerUpActive : Bool
  powerUpEndTime : Int
  gameOver : Bool
  player : Player
  bulletMode : Mode
  bulletModeEndTime : Int
  stored : Option Int

/-- The state the script starts in (lines 18-44, 245-246). -/
def initialState (W H : ℚ) : State where
  keys := fun _ => false
  bullets := []
  enemies := []
  powerUps := []
  companions := []
  explosions := []
  score := 0
  highScore := 0
  health := 3
  powerUpCount := 0
  powerUpActive := false
  powerUpEndTime := 0
  gameOver := false
  player :=
    { x := W / 2 - PLAYER_WIDTH / 2
      y := H - PLAYER_HEIGHT - 10
      width := PLAYER_WIDTH
      height := PLAYER_HEIGHT
      speed := PLAYER_SPEED
      canShoot := true
      shootCooldown := 300
      lastShotTime := 0 }
  bulletMode := Mode.normal
  bulletModeEndTime := 0
  stored := none

/-! ## `Array.prototype.forEach` over an array that the callback may splice -/

/-- The loop of `forEach`: `n` indices are still to be visited, `k` is the next one.
An index that is no longer inside the array (after a `splice`) is skipped. -/
def forEachFrom {σ α : Type} (arr : σ → List α) (f : α → Nat → σ → σ) : Nat → Nat → σ → σ
  | 0, _, s => s
  | n + 1, k, s =>
    forEachFrom arr f n (k + 1)
      (match (arr s)[k]? with
       | some a => f a k s
       | none => s)

/-- The call `arr.forEach(f)`: the length is read once, before the first call of `f`. -/
def forEach {σ α : Type} (arr : σ → List α) (f : α → Nat → σ → σ) (s : σ) : σ :=
  forEachFrom arr f (arr s).length 0 s

/-! ## Utilities and UI helpers -/

/-- Line 47: `randomRange(min, max)` with the draw `r` of `Math.random()`. -/
def randomRange (r min max : ℚ) : ℚ := r * (max - min) + min

/-- Lines 616-622: the state effect of `updateScoreUI`. -/
def updateScoreUI (s : State) : State :=
  if s.score > s.highScore then
    { s with highScore := s.score, stored := some s.score }
  else s

/-- Lines 601-609. -/
def createExplosion (now : Int) (x y : ℚ) (s : State) : State :=
  { s with explosions := s.explosions ++
      [{ x := x, y := y, radius := 30, startTime := now, duration := 500 }] }

/-- Lines 611-614. -/
def updateExplosions (now : Int) (s : State) : State :=
  { s with explosions := s.explosions.filter (fun ex => now - ex.startTime < ex.duration) }

/-- Lines 639-643. -/
def triggerGameOver (s : State) : State :=
  { s with gameOver := true }

/-! ## Input handlers -/

/-- The body of the `KeyH` branch of the keydown handler (lines 57-62). -/
def convertCharge (s : State) : State :=
  if s.powerUpCount > 0 ∧ s.health < 5 then
    { s with powerUpCount := s.powerUpCount - 1, health := s.health + 1 }
  else s

/-- Lines 52-64: the keydown handler for the key `code`. -/
def keydown (code : String) (s : State) : State :=
  let s1 := { s with keys := fun c => if c = code then true else s.keys c }
  if code = "KeyH" then convertCharge s1 else s1

/-- Lines 66-68: the keyup handler. -/
def keyup (code : String) (s : State) : State :=
  { s with keys := fun c => if c = code then false else s.keys c }

/-! ## Companions -/

/-- Lines 108-133: `companionTypes[i]`. -/
def companionTypes : Fin 3 → CompanionType
  | 0 => { color := "#0ff", shootInterval := 500, bulletSpeed := 6, bulletWidth := 4,
           bulletHeight := 10, offsetX := -30 }
  | 1 => { color := "#ff0", shootInterval := 700, bulletSpeed := 5, bulletWidth := 6,
           bulletHeight := 12, offsetX := 30 }
  | 2 => { color := "#f0f", shootInterval := 1000, bulletSpeed := 8, bulletWidth := 3,
           bulletHeight := 8, offsetX := 0 }

/-- Lines 171-176: the inner loop of `updateCompanions` over `companion.bullets`. -/
def updateCompanionBullets (bs : List Bullet) : List Bullet :=
  forEach (fun l : List Bullet => l)
    (fun bullet bIndex l =>
      let b1 := { bullet with y := bullet.y - bullet.speed }
      let l1 := l.set bIndex b1
      if b1.y + b1.height < 0 then l1.eraseIdx bIndex else l1)
    bs

/-- Lines 154-176: what one callback of `updateCompanions` does to the companion
object itself (follow the player, shoot, move its bullets). -/
def companionStep (now : Int) (pl : Player) (c : Companion) : Companion :=
  let c1 := { c with x := pl.x + c.offsetX, y := pl.y - c.height - 10 }
  let c2 :=
    if now - c1.lastShotTime > c1.shootInterval then
      { c1 with
        bullets := c1.bullets ++
          [{ x := c1.x + c1.width / 2 - c1.bulletWidth / 2, y := c1.y,
             width := c1.bulletWidth, height := c1.bulletHeight, speed := c1.bulletSpeed,
             dx := none, dy := none, bounces := none }]
        lastShotTime := now }
    else c1
  { c2 with bullets := updateCompanionBullets c2.bullets }

/-- Lines 151-183. -/
def updateCompanions (now : Int) (s : State) : State :=
  forEach (fun t : State => t.companions)
    (fun companion index t =>
      let c := companionStep now t.player companion
      let t1 := { t with companions := t.companions.set index c }
      if now > c.endTime then { t1 with companions := t1.companions.eraseIdx index } else t1)
    s

/-- The statement `companion.bullets.splice(bIndex, 1)` for the companion stored at
index `cIndex` of `companions`. -/
def spliceCompanionBullet (cIndex bIndex : Nat) (cs : List Companion) : List Companion :=
  match cs[cIndex]? with
  | some c => cs.set cIndex { c with bullets := c.bullets.eraseIdx bIndex }
  | none => cs

/-- The bullets of the companion stored at index `cIndex`. -/
def companionBulletsAt (cIndex : Nat) (s : State) : List Bullet :=
  match s.companions[cIndex]? with
  | some c => c.bullets
  | none => []

/-- The axis-aligned box test of a bullet against an enemy (lines 200-205, 563-568). -/
def bulletHitsEnemy (b : Bullet) (e : Enemy) : Prop :=
  b.x < e.x + e.size ∧ b.x + b.width > e.x ∧ b.y < e.y + e.size ∧ b.y + b.height > e.y

instance (b : Bullet) (e : Enemy) : Decidable (bulletHitsEnemy b e) := by
  unfold bulletHitsEnemy; infer_instance

/-- Lines 196-216. -/
def checkCompanionBulletCollisions (now : Int) (s : State) : State :=
  forEach (fun t : State => t.companions)
    (fun _ cIndex t1 =>
      forEach (companionBulletsAt cIndex)
        (fun bullet bIndex t2 =>
          forEach (fun t : State => t.enemies)
            (fun enemy eIndex t3 =>
              if bulletHitsEnemy bullet enemy then
                createExplosion now (enemy.x + enemy.size / 2) (enemy.y + enemy.size / 2)
                  (updateScoreUI
                    { t3 with
                      companions := spliceCompanionBullet cIndex bIndex t3.companions
                      enemies := t3.enemies.eraseIdx eIndex
                      score := t3.score + 15 })
              else t3)
            t2)
        t1)
    s

/-! ## Power-ups -/

/-- Lines 219-229; `r` is the draw of `Math.random()`. -/
def spawnCompanionPowerUp (W r : ℚ) (s : State) : State :=
  if s.gameOver then s
  else
    { s with powerUps := s.powerUps ++
        [{ x := randomRange r 0 (W - 20), y := -20, size := 20, speed := 3 / 2,
           isHealth := false, isCompanion := true, type := none }] }

/-- Lines 232-242. -/
def spawnHealthPowerUp (W r : ℚ) (s : State) : State :=
  if s.gameOver then s
  else
    { s with powerUps := s.powerUps ++
        [{ x := randomRange r 0 (W - 20), y := -20, size := 20, speed := 3 / 2,
           isHealth := true, isCompanion := false, type := none }] }

/-- Lines 248-282; `i` is `Math.floor(Math.random() * companionTypes.length)`. -/
def activatePowerUp (now : Int) (i : Fin 3) (powerUp : PowerUp) (s : State) : State :=
  let s1 := { s with powerUpCount := s.powerUpCount + 1 }
  if powerUp.isCompanion then
    let type := companionTypes i
    { s1 with companions := s1.companions ++
        [{ x := s1.player.x + type.offsetX, y := s1.player.y - PLAYER_HEIGHT - 10,
           width := 30, height := 30, color := type.color,
           shootInterval := type.shootInterval, bulletSpeed := type.bulletSpeed,
           bulletWidth := type.bulletWidth, bulletHeight := type.bulletHeight,
           offsetX := type.offsetX, lastShotTime := 0, bullets := [],
           endTime := now + POWERUP_DURATION }] }
  else if powerUp.isHealth then
    if s1.health < 5 then { s1 with health := s1.health + 1 } else s1
  else if powerUp.type = some Mode.spread then
    { s1 with bulletMode := Mode.spread, bulletModeEndTime := now + POWERUP_DURATION }
  else if powerUp.type = some Mode.bounce then
    { s1 with bulletMode := Mode.bounce, bulletModeEndTime := now + POWERUP_DURATION }
  else s1

/-- Lines 284-291: the earlier declaration of `updatePowerUpStatus` (shadowed by the
declaration at line 554). -/
def updatePowerUpStatus_284 (now : Int) (s : State) : State :=
  let s1 := if s.powerUpActive ∧ now > s.powerUpEndTime then { s with powerUpActive := false } else s
  if (s1.bulletMode = Mode.spread ∨ s1.bulletMode = Mode.bounce) ∧ now > s1.bulletModeEndTime then
    { s1 with bulletMode := Mode.normal }
  else s1

/-- Lines 554-558: the declaration of `updatePowerUpStatus` that is in effect. -/
def updatePowerUpStatus (now : Int) (s : State) : State :=
  if s.powerUpActive ∧ now > s.powerUpEndTime then { s with powerUpActive := false } else s

/-- Lines 383-404: the earlier declaration of `spawnPowerUp` (shadowed by the
declaration at line 523); `i` is `Math.floor(Math.random() * 4)`. -/
def spawnPowerUp_383 (W : ℚ) (i : Fin 4) (r : ℚ) (s : State) : State :=
  if s.gameOver then s
  else
    let powerUp : PowerUp :=
      { x := randomRange r 0 (W - 20), y := -20, size := 20, speed := 3 / 2,
        isHealth := false, isCompanion := false, type := none }
    let powerUp :=
      match i with
      | 0 => { powerUp with isHealth := true }
      | 1 => { powerUp with isCompanion := true }
      | 2 => { powerUp with type := some Mode.spread }
      | 3 => { powerUp with type := some Mode.bounce }
    { s with powerUps := s.powerUps ++ [powerUp] }

/-- Lines 523-532: the declaration of `spawnPowerUp` that is in effect. -/
def spawnPowerUp (W r : ℚ) (s : State) : State :=
  if s.gameOver then s
  else
    { s with powerUps := s.powerUps ++
        [{ x := randomRange r 0 (W - 20), y := -20, size := 20, speed := 3 / 2,
           isHealth := false, isCompanion := false, type := none }] }

/-- The box test of a power-up against the player (lines 541-546). -/
def powerUpHitsPlayer (p : PowerUp) (pl : Player) : Prop :=
  p.x < pl.x + pl.width ∧ p.x + p.size > pl.x ∧ p.y < pl.y + pl.height ∧ p.y + p.size > pl.y

instance (p : PowerUp) (pl : Player) : Decidable (powerUpHitsPlayer p pl) := by
  unfold powerUpHitsPlayer; infer_instance

/-- Lines 535-550: the callback of `updatePowerUps` for the power-up at `index`;
`draw k` is the companion-type draw used when the power-up visited at index `k` is
activated. -/
def updatePowerUpsBody (H : ℚ) (now : Int) (draw : Nat → Fin 3) (powerUp : PowerUp)
    (index : Nat) (t : State) : State :=
  let p := { powerUp with y := powerUp.y + powerUp.speed }
  let t1 := { t with powerUps := t.powerUps.set index p }
  let t2 := if p.y > H then { t1 with powerUps := t1.powerUps.eraseIdx index } else t1
  if powerUpHitsPlayer p t2.player then
    activatePowerUp now (draw index) p { t2 with powerUps := t2.powerUps.eraseIdx index }
  else t2

/-- Lines 534-551. -/
def updatePowerUps (H : ℚ) (now : Int) (draw : Nat → Fin 3) (s : State) : State :=
  forEach (fun t : State => t.powerUps) (updatePowerUpsBody H now draw) s

/-! ## Player movement and firing -/

/-- Lines 414-430. -/
def movePlayer (W H : ℚ) (s : State) : State :=
  let p := s.player
  let p := if s.keys "ArrowLeft" || s.keys "KeyA" then { p with x := p.x - p.speed } else p
  let p := if s.keys "ArrowRight" || s.keys "KeyD" then { p with x := p.x + p.speed } else p
  let p := if s.keys "ArrowUp" || s.keys "KeyW" then { p with y := p.y - p.speed } else p
  let p := if s.keys "ArrowDown" || s.keys "KeyS" then { p with y := p.y + p.speed } else p
  let p := { p with x := max 0 (min (W - p.width) p.x) }
  let p := { p with y := max 0 (min (H - p.height) p.y) }
  { s with player := p }

/-- The condition under which `shoot` fires (lines 295-297 and 433-435). -/
def shotTriggered (now : Int) (s : State) : Prop :=
  ((s.keys "Space" || s.keys "KeyJ") && s.player.canShoot && !s.gameOver) = true ∧
    now - s.player.lastShotTime > s.player.shootCooldown

instance (now : Int) (s : State) : Decidable (shotTriggered now s) := by
  unfold shotTriggered; infer_instance

/-- The bullet object literal of the earlier `shoot` (lines 299-351), for given
`dx` and `bounces`. -/
def modeBullet (pl : Player) (dx : ℚ) (bounces : Int) : Bullet :=
  { x := pl.x + pl.width / 2 - 3, y := pl.y, width := 6, height := 12, speed := BULLET_SPEED,
    dx := some dx, dy := some (-BULLET_SPEED), bounces := some bounces }

/-- Lines 294-359: the earlier declaration of `shoot` (shadowed by the declaration at
line 432). -/
def shoot_294 (now : Int) (s : State) : State :=
  if shotTriggered now s then
    let fired :=
      match s.bulletMode with
      | Mode.normal => [modeBullet s.player 0 0]
      | Mode.spread => [modeBullet s.player (-2) 0, modeBullet s.player 0 0, modeBullet s.player 2 0]
      | Mode.bounce => [modeBullet s.player 2 3]
    updateScoreUI
      { s with
        bullets := s.bullets ++ fired
        player := { s.player with lastShotTime := now }
        score := max 0 (s.score - 2) }
  else s

/-- Lines 432-449: the declaration of `shoot` that is in effect. -/
def shoot (now : Int) (s : State) : State :=
  if shotTriggered now s then
    updateScoreUI
      { s with
        bullets := s.bullets ++
          [{ x := s.player.x + s.player.width / 2 - 3, y := s.player.y, width := 6, height := 12,
             speed := BULLET_SPEED, dx := none, dy := none, bounces := none }]
        player := { s.player with lastShotTime := now }
        score := max 0 (s.score - 2) }
  else s

/-- The expression `v || d` for a numeric property `v` that may be absent: an absent
or zero `v` gives `d`. -/
def orElse (v : Option ℚ) (d : ℚ) : ℚ :=
  match v with
  | some a => if a = 0 then d else a
  | none => d

/-- The test `bullet.bounces > 0`; an absent `bounces` compares as false. -/
def bouncesLeft (v : Option Int) : Bool :=
  match v with
  | some n => decide (n > 0)
  | none => false

/-- Lines 364-375: what one callback of the earlier `updateBullets` does to the bullet
object.  Negating an absent `dx` / `dy` gives `NaN`, which like an absent value is
falsy in `v || d`, so it stays `none`. -/
def bulletStep_362 (W : ℚ) (mode : Mode) (b : Bullet) : Bullet :=
  let b := { b with x := b.x + orElse b.dx 0 }
  let b := { b with y := b.y + orElse b.dy (-b.speed) }
  if mode = Mode.bounce ∧ bouncesLeft b.bounces then
    let b :=
      if b.x ≤ 0 ∨ b.x + b.width ≥ W then
        { b with dx := b.dx.map (fun d => -d), bounces := b.bounces.map (fun n => n - 1) }
      else b
    if b.y ≤ 0 then
      { b with dy := b.dy.map (fun d => -d), bounces := b.bounces.map (fun n => n - 1) }
    else b
  else b

/-- Lines 363-379: the callback of the earlier `updateBullets` for the bullet at
`index`. -/
def updateBulletsBody_362 (W H : ℚ) (bullet : Bullet) (index : Nat) (t : State) : State :=
  let b := bulletStep_362 W t.bulletMode bullet
  let t1 := { t with bullets := t.bullets.set index b }
  if b.y + b.height < 0 ∨ b.y > H then { t1 with bullets := t1.bullets.eraseIdx index } else t1

/-- Lines 362-380: the earlier declaration of `updateBullets` (shadowed by the
declaration at line 451). -/
def updateBullets_362 (W H : ℚ) (s : State) : State :=
  forEach (fun t : State => t.bullets) (updateBulletsBody_362 W H) s

/-- Lines 452-457: the callback of the `updateBullets` in effect for the bullet at
`index`. -/
def updateBulletsBody (bullet : Bullet) (index : Nat) (t : State) : State :=
  let b := { bullet with y := bullet.y - bullet.speed }
  let t1 := { t with bullets := t.bullets.set index b }
  if b.y + b.height < 0 then { t1 with bullets := t1.bullets.eraseIdx index } else t1

/-- Lines 451-458: the declaration of `updateBullets` that is in effect. -/
def updateBullets (s : State) : State :=
  forEach (fun t : State => t.bullets) updateBulletsBody s

/-! ## Enemies -/

/-- An entry of `enemyTypes`. -/
structure EnemyType where
  sizeMin : ℚ
  sizeMax : ℚ
  speedMin : ℚ
  speedMax : ℚ
  color : String
  pattern : Pattern

/-- Lines 460-479: `enemyTypes[i]`. -/
def enemyTypes : Fin 3 → EnemyType
  | 0 => { sizeMin := 20, sizeMax := 30, speedMin := 3 / 2, speedMax := 5 / 2,
           color := "#f00", pattern := Pattern.straight }
  | 1 => { sizeMin := 30, sizeMax := 50, speedMin := 1, speedMax := 9 / 5,
           color := "#a00", pattern := Pattern.zigzag }
  | 2 => { sizeMin := 15, sizeMax := 25, speedMin := 2, speedMax := 3,
           color := "#f55", pattern := Pattern.fast }

/-- Lines 481-494; `i` is `Math.floor(Math.random() * enemyTypes.length)` and
`rSize`, `rX`, `rSpeed` are the three later draws of `Math.random()`, in call order. -/
def spawnEnemy (W : ℚ) (i : Fin 3) (rSize rX rSpeed : ℚ) (s : State) : State :=
  if s.gameOver then s
  else
    let type := enemyTypes i
    let size := randomRange rSize type.sizeMin type.sizeMax
    { s with enemies := s.enemies ++
        [{ x := randomRange rX 0 (W - size), y := -size, size := size,
           speed := randomRange rSpeed type.speedMin type.speedMax,
           color := type.color, pattern := type.pattern, zigzagDirection := 1 }] }

/-- Lines 498-504: what one callback of `updateEnemies` does to the enemy object, in
exact arithmetic. -/
def enemyStep (W : ℚ) (e : Enemy) : Enemy :=
  let e :=
    if e.pattern = Pattern.zigzag then
      let e := { e with x := e.x + e.speed * e.zigzagDirection }
      if e.x ≤ 0 ∨ e.x + e.size ≥ W then { e with zigzagDirection := e.zigzagDirection * -1 }
      else e
    else e
  { e with y := e.y + e.speed }

/-- Lines 498-504 with the rounding of every arithmetic result written out: `fl` is
applied to the product, to both sums, to the sign change and to the new `y`, as a
binary64 machine does.  `enemyStep` is the case in which `fl` changes nothing. -/
def enemyStepRounded (fl : ℚ → ℚ) (W : ℚ) (e : Enemy) : Enemy :=
  let e :=
    if e.pattern = Pattern.zigzag then
      let e := { e with x := fl (e.x + fl (e.speed * e.zigzagDirection)) }
      if e.x ≤ 0 ∨ fl (e.x + e.size) ≥ W then
        { e with zigzagDirection := fl (e.zigzagDirection * -1) }
      else e
    else e
  { e with y := fl (e.y + e.speed) }

/-- Lines 497-513: the callback of `updateEnemies` for the enemy at `index`. -/
def updateEnemiesBody (W H : ℚ) (enemy : Enemy) (index : Nat) (t : State) : State :=
  let e := enemyStep W enemy
  let t1 := { t with enemies := t.enemies.set index e }
  if e.y > H then
    let t2 := { t1 with enemies := t1.enemies.eraseIdx index, health := t1.health - 1 }
    if t2.health ≤ 0 then triggerGameOver t2 else t2
  else t1

/-- Lines 496-514. -/
def updateEnemies (W H : ℚ) (s : State) : State :=
  forEach (fun t : State => t.enemies) (updateEnemiesBody W H) s

/-! ## Collisions -/

/-- Lines 561-577: the callback of the inner loop of the bullet-versus-enemy pass,
for the bullet object `bullet` visited at `bIndex`. -/
def bulletEnemyBody (now : Int) (bullet : Bullet) (bIndex : Nat) (enemy : Enemy) (eIndex : Nat)
    (t : State) : State :=
  if bulletHitsEnemy bullet enemy then
    createExplosion now (enemy.x + enemy.size / 2) (enemy.y + enemy.size / 2)
      (updateScoreUI
        { t with
          bullets := t.bullets.eraseIdx bIndex
          enemies := t.enemies.eraseIdx eIndex
          score := t.score + 10 })
  else t

/-- Lines 561-577: the bullet-versus-enemy pass of `checkCollisions`. -/
def bulletEnemyPass (now : Int) (s : State) : State :=
  forEach (fun t : State => t.bullets)
    (fun bullet bIndex t1 =>
      forEach (fun t : State => t.enemies) (bulletEnemyBody now bullet bIndex) t1)
    s

/-- Lines 579-595: the callback of the enemy-versus-player pass. -/
def enemyPlayerBody (now : Int) (enemy : Enemy) (eIndex : Nat) (t : State) : State :=
  if enemy.x < t.player.x + t.player.width ∧ enemy.x + enemy.size > t.player.x ∧
      enemy.y < t.player.y + t.player.height ∧ enemy.y + enemy.size > t.player.y then
    let t1 := { t with enemies := t.enemies.eraseIdx eIndex, health := t.health - 1 }
    let t2 := createExplosion now (t1.player.x + t1.player.width / 2)
      (t1.player.y + t1.player.height / 2) t1
    if t2.health ≤ 0 then triggerGameOver t2 else t2
  else t

/-- Lines 579-595: the enemy-versus-player pass of `checkCollisions`. -/
def enemyPlayerPass (now : Int) (s : State) : State :=
  forEach (fun t : State => t.enemies) (enemyPlayerBody now) s

/-- Lines 560-599. -/
def checkCollisions (now : Int) (s : State) : State :=
  checkCompanionBulletCollisions now (enemyPlayerPass now (bulletEnemyPass now s))

/-! ## Restart and the tick -/

/-- Lines 645-663; `localStorage.getItem('highScore') || 0` reads `stored`. -/
def restartGame (W H : ℚ) (s : State) : State :=
  updateScoreUI
    { s with
      score := 0
      highScore := (match s.stored with | some v => v | none => 0)
      health := 3
      powerUpCount := 0
      powerUpActive := false
      gameOver := false
      player := { s.player with x := W / 2 - PLAYER_WIDTH / 2, y := H - PLAYER_HEIGHT - 10 }
      bullets := []
      enemies := []
      powerUps := []
      explosions := [] }

/-- Lines 696-706: the state updates of one tick, in call order.  Every `Date.now()`
of the tick reads the same instant `now`. -/
def tickUpdates (W H : ℚ) (now : Int) (draw : Nat → Fin 3) (s : State) : State :=
  let s := movePlayer W H s
  let s := shoot now s
  let s := updateBullets s
  let s := updateEnemies W H s
  let s := updatePowerUps H now draw s
  let s := updateCompanions now s
  let s := updateExplosions now s
  let s := updatePowerUpStatus now s
  checkCollisions now s

/-- Lines 693-721: one call of `gameLoop`.  The second component tells whether the
call asked the host for another tick (`requestAnimationFrame(gameLoop)`, lines
718-720). -/
def gameLoop (W H : ℚ) (now : Int) (draw : Nat → Fin 3) (s : State) : State × Bool :=
  let s1 := tickUpdates W H now draw s
  (s1, !s1.gameOver)

/-! ## Reachable states -/

/-- The operations that change the state: the eight state-changing calls of the tick,
the four spawn callbacks of the timers, the two key handlers and the restart. -/
inductive Op where
  | movePlayer
  | shoot (now : Int)
  | updateBullets
  | updateEnemies
  | updatePowerUps (now : Int) (draw : Nat → Fin 3)
  | updateCompanions (now : Int)
  | updateExplosions (now : Int)
  | updatePowerUpStatus (now : Int)
  | checkCollisions (now : Int)
  | spawnEnemy (i : Fin 3) (rSize rX rSpeed : ℚ)
  | spawnPowerUp (r : ℚ)
  | spawnCompanionPowerUp (r : ℚ)
  | spawnHealthPowerUp (r : ℚ)
  | keydown (code : String)
  | keyup (code : String)
  | restartGame

/-- The effect of one operation. -/
def applyOp (W H : ℚ) : Op → State → State
  | Op.movePlayer, s => movePlayer W H s
  | Op.shoot now, s => shoot now s
  | Op.updateBullets, s => updateBullets s
  | Op.updateEnemies, s => updateEnemies W H s
  | Op.updatePowerUps now draw, s => updatePowerUps H now draw s
  | Op.updateCompanions now, s => updateCompanions now s
  | Op.updateExplosions now, s => updateExplosions now s
  | Op.updatePowerUpStatus now, s => updatePowerUpStatus now s
  | Op.checkCollisions now, s => checkCollisions now s
  | Op.spawnEnemy i rSize rX rSpeed, s => spawnEnemy W i rSize rX rSpeed s
  | Op.spawnPowerUp r, s => spawnPowerUp W r s
  | Op.spawnCompanionPowerUp r, s => spawnCompanionPowerUp W r s
  | Op.spawnHealthPowerUp r, s => spawnHealthPowerUp W r s
  | Op.keydown code, s => keydown code s
  | Op.keyup code, s => keyup code s
  | Op.restartGame, s => restartGame W H s

/-- Run a sequence of operations, first to last. -/
def run (W H : ℚ) (ops : List Op) (s : State) : State :=
  ops.foldl (fun t op => applyOp W H op t) s

/-- The states reachable from the initial state by a sequence of operations. -/
def Reachable (W H : ℚ) (s : State) : Prop :=
  ∃ ops : List Op, run W H ops (initialState W H) = s

/-! ## Predicates and concrete scenarios used in the statements -/

/-- What every operation preserves: the score is not negative, health is at most 5,
and health is at least 1 as long as the game is not over. -/
def CountersOk (s : State) : Prop :=
  0 ≤ s.score ∧ s.health ≤ 5 ∧ (s.gameOver = false → 1 ≤ s.health)

/-- The enemy of the bottom-edge scenario: `spawnEnemy` with type draw 2 (`fast`), size
draw 0 (size 15), position draw 0 (x = 0) and speed draw 1/2 (speed 5/2), on a
300 x 150 canvas. -/
def edgeEnemy : Enemy :=
  { x := 0, y := -15, size := 15, speed := 5 / 2, color := "#f55", pattern := Pattern.fast,
    zigzagDirection := 1 }

/-- The bottom-edge scenario: seven enemies are spawned, then `updateEnemies` runs 67
times.  After 66 calls all seven are at y = 150 (the bottom edge of the canvas);
the 67th call moves them below it. -/
def edgeOps : List Op :=
  List.replicate 7 (Op.spawnEnemy 2 0 0 (1 / 2)) ++ List.replicate 66 Op.updateEnemies ++
    [Op.updateEnemies]

/-- A bullet as the `shoot` in effect creates it, at position `(x, y)`. -/
def plainBullet (x y : ℚ) : Bullet :=
  { x := x, y := y, width := 6, height := 12, speed := BULLET_SPEED,
    dx := none, dy := none, bounces := none }

/-- A straight enemy of size 30 at `(x, y)`. -/
def plainEnemy (x y : ℚ) : Enemy :=
  { x := x, y := y, size := 30, speed := 2, color := "#f00", pattern := Pattern.straight,
    zigzagDirection := 1 }

/-- The stale-index scenario on an 800 x 600 canvas: the bullet at (97, 10) overlaps
the first and the third enemy, the bullet at (200, 300) overlaps no enemy. -/
def staleIndexState : State :=
  { initialState 800 600 with
    bullets := [plainBullet 97 10, plainBullet 200 300]
    enemies := [plainEnemy 90 5, plainEnemy 400 50, plainEnemy 95 8] }

/-- The example of the specification: one bullet at (97, 10) and one enemy of size 30
at (90, 5), on an 800 x 600 canvas. -/
def exampleHitState : State :=
  { initialState 800 600 with
    bullets := [plainBullet 97 10]
    enemies := [plainEnemy 90 5] }

/-- A state on a 300 x 150 canvas with one health point left, in which the second
enemy (at y = 149, speed 2) is about to leave the bottom. -/
def lastHealthState : State :=
  { initialState 300 150 with
    health := 1
    enemies := [plainEnemy 10 20, plainEnemy 50 149, plainEnemy 100 30, plainEnemy 200 40] }

/-- A game-over state on an 800 x 600 canvas in which the left arrow key is held. -/
def gameOverState : State :=
  { initialState 800 600 with
    health := 0
    gameOver := true
    keys := fun c => decide (c = "ArrowLeft") }

/-- A companion as `activatePowerUp` creates it at time 1000 from `companionTypes[0]`,
for the player at (380, 550). -/
def escort : Companion :=
  { x := 350, y := 500, width := 30, height := 30, color := "#0ff", shootInterval := 500,
    bulletSpeed := 6, bulletWidth := 4, bulletHeight := 10, offsetX := -30, lastShotTime := 0,
    bullets := [], endTime := 9000 }

/-- A game-over state on an 800 x 600 canvas, reached while the spread mode was active
and a companion was alive. -/
def restartFromState : State :=
  { initialState 800 600 with
    score := 40
    highScore := 40
    stored := some 40
    health := 0
    gameOver := true
    powerUpCount := 2
    companions := [escort]
    bulletMode := Mode.spread
    bulletModeEndTime := 9000 }

/-- A running state on an 800 x 600 canvas in spread mode (expiry at time 1000) with the
fire key held. -/
def spreadState : State :=
  { initialState 800 600 with
    keys := fun c => decide (c = "Space")
    bulletMode := Mode.spread
    bulletModeEndTime := 1000 }

/-- A running state with two charges and health 3. -/
def chargedState : State :=
  { initialState 800 600 with powerUpCount := 2 }

/-- The number of effect kinds a power-up carries: `isHealth`, `isCompanion`,
`type === 'spread'`, `type === 'bounce'`. -/
def kindCount (p : PowerUp) : Nat :=
  (if p.isHealth then 1 else 0) + (if p.isCompanion then 1 else 0) +
    (if p.type = some Mode.spread then 1 else 0) + (if p.type = some Mode.bounce then 1 else 0)

/-- A health power-up at the player of the initial 800 x 600 state. -/
def healthPickup : PowerUp :=
  { x := 390, y := 560, size := 20, speed := 3 / 2, isHealth := true, isCompanion := false,
    type := none }

/-- Horizontal direction held: (right key held) minus (left key held). -/
def heldX (s : State) : ℚ :=
  (if s.keys "ArrowRight" || s.keys "KeyD" then 1 else 0) -
    (if s.keys "ArrowLeft" || s.keys "KeyA" then 1 else 0)

/-- Vertical direction held: (down key held) minus (up key held). -/
def heldY (s : State) : ℚ :=
  (if s.keys "ArrowDown" || s.keys "KeyS" then 1 else 0) -
    (if s.keys "ArrowUp" || s.keys "KeyW" then 1 else 0)

/-- The initial 800 x 600 state with the right and the up arrow keys held. -/
def steeringState : State :=
  { initialState 800 600 with keys := fun c => decide (c = "ArrowRight" ∨ c = "ArrowUp") }

/-- A second companion, as `activatePowerUp` creates it at time 1200 from
`companionTypes[1]`, for the player at (380, 550). -/
def escortRight : Companion :=
  { x := 410, y := 500, width := 30, height := 30, color := "#ff0", shootInterval := 700,
    bulletSpeed := 5, bulletWidth := 6, bulletHeight := 12, offsetX := 30, lastShotTime := 0,
    bullets := [], endTime := 9200 }

/-- A running state on an 800 x 600 canvas with two companions, whose lifetimes end at
times 9000 and 9200. -/
def twoEscortsState : State :=
  { initialState 800 600 with companions := [escort, escortRight] }

/-- A running state on a 300 x 150 canvas: the first enemy (at y = 149, speed 2) is about
to leave the bottom, the second one is at y = 30. -/
def skipState : State :=
  { initialState 300 150 with enemies := [plainEnemy 50 149, plainEnemy 100 30] }

/-- A running state on a 300 x 150 canvas with three enemies not below the bottom edge;
the first and the third (at y = 149 and y = 150) leave the bottom in the next call. -/
def nearEdgeState : State :=
  { initialState 300 150 with
    enemies := [plainEnemy 50 149, plainEnemy 100 30, plainEnemy 200 150] }

/-- The callback of `updatePowerUps` as the claim describes it: the two removals exclude
each other, so the visited power-up is spliced at most once (at its own index) and
`activatePowerUp` runs only when it overlaps the player. -/
def updatePowerUpsOnce (H : ℚ) (now : Int) (draw : Nat → Fin 3) (powerUp : PowerUp)
    (index : Nat) (t : State) : State :=
  let p := { powerUp with y := powerUp.y + powerUp.speed }
  if p.y > H then { t with powerUps := t.powerUps.eraseIdx index }
  else if powerUpHitsPlayer p t.player then
    activatePowerUp now (draw index) p { t with powerUps := t.powerUps.eraseIdx index }
  else { t with powerUps := t.powerUps.set index p }

/-- A running state on an 800 x 600 canvas with a power-up above the player (it reaches
the player in this call) and one far below the bottom edge. -/
def pickupState : State :=
  { initialState 800 600 with
    powerUps :=
      [{ x := 390, y := 530, size := 20, speed := 3 / 2, isHealth := true, isCompanion := false,
         type := none },
       { x := 100, y := 600, size := 20, speed := 3 / 2, isHealth := false, isCompanion := true,
         type := none }] }

/-- The number of velocity negations (`dx = -dx`, `dy = -dy`) that one callback of the
earlier `updateBullets` (lines 366-375) applies to the bullet. -/
def reflections_362 (W : ℚ) (mode : Mode) (b : Bullet) : Nat :=
  let b := { b with x := b.x + orElse b.dx 0 }
  let b := { b with y := b.y + orElse b.dy (-b.speed) }
  if mode = Mode.bounce ∧ bouncesLeft b.bounces then
    (if b.x ≤ 0 ∨ b.x + b.width ≥ W then 1 else 0) + (if b.y ≤ 0 then 1 else 0)
  else 0

/-- One call of the earlier `updateBullets` seen from a single bullet, together with the
number of negations applied to it so far; `none` once the bullet has been spliced
out (lines 376-378). -/
def flightStep (W H : ℚ) (mode : Mode) : Option (Bullet × Nat) → Option (Bullet × Nat)
  | none => none
  | some (b, c) =>
    if (bulletStep_362 W mode b).y + (bulletStep_362 W mode b).height < 0 ∨
        (bulletStep_362 W mode b).y > H then none
    else some (bulletStep_362 W mode b, c + reflections_362 W mode b)

/-- The bullets list that holds the bullet of a flight (empty once it is spliced out). -/
def flightBullets (o : Option (Bullet × Nat)) : List Bullet :=
  match o with
  | none => []
  | some (b, _) => [b]

/-- The initial state on a 46 x 400 canvas (player at (3, 350)) in bounce mode with the
fire key held. -/
def bounceState : State :=
  { initialState 46 400 with
    keys := fun c => decide (c = "Space")
    bulletMode := Mode.bounce
    bulletModeEndTime := 9000 }

/-- A bullet of the earlier `shoot` (6 x 12, speed 7) at `(x, y)` with velocity
`(dx, dy)` and `bounces` bounces left. -/
def flyer (x y dx dy : ℚ) (bounces : Int) : Bullet :=
  { x := x, y := y, width := 6, height := 12, speed := 7, dx := some dx, dy := some dy,
    bounces := some bounces }

/-- A call of the firing pair: `shoot()` at time `now`, or `updateBullets()`. -/
inductive FireCall where
  | shoot (now : Int)
  | updateBullets

/-- A call carried out by the earlier declarations (lines 294 and 362). -/
def applyEarlier (W H : ℚ) : FireCall → State → State
  | FireCall.shoot now, s => shoot_294 now s
  | FireCall.updateBullets, s => updateBullets_362 W H s

/-- A call carried out by the later declarations (lines 432 and 451). -/
def applyLater : FireCall → State → State
  | FireCall.shoot now, s => shoot now s
  | FireCall.updateBullets, s => updateBullets s

/-- A sequence of calls carried out by the earlier declarations, first to last. -/
def runEarlier (W H : ℚ) (calls : List FireCall) (s : State) : State :=
  calls.foldl (fun t c => applyEarlier W H c t) s

/-- A sequence of calls carried out by the later declarations, first to last. -/
def runLater (calls : List FireCall) (s : State) : State :=
  calls.foldl (fun t c => applyLater c t) s

/-- The box of a bullet: `(x, y, width, height)`. -/
def Bullet.box (b : Bullet) : ℚ × ℚ × ℚ × ℚ := (b.x, b.y, b.width, b.height)

/-- What the claim observes of two states: same score, same `lastShotTime`, bullets
lists of the same length with the same box at every index. -/
def SameShots (s1 s2 : State) : Prop :=
  s1.score = s2.score ∧ s1.player.lastShotTime = s2.player.lastShotTime ∧
    s1.bullets.map Bullet.box = s2.bullets.map Bullet.box

/-- A bullet that both declarations of `updateBullets` move straight up: `dx` absent or
0, `dy` absent, 0 or `-speed`, `speed ≥ 0`, and not below the bottom edge. -/
def StraightUp (H : ℚ) (b : Bullet) : Prop :=
  orElse b.dx 0 = 0 ∧ orElse b.dy (-b.speed) = -b.speed ∧ 0 ≤ b.speed ∧ b.y ≤ H

/-- Box and speed of a bullet: what the later `updateBullets` reads. -/
def Bullet.core (b : Bullet) : ℚ × ℚ × ℚ × ℚ × ℚ := (b.x, b.y, b.width, b.height, b.speed)

/-- The relation kept between the state of the earlier pair and the state of the later
pair while both carry out the same calls in normal mode. -/
def InStep (H : ℚ) (s1 s2 : State) : Prop :=
  s1.keys = s2.keys ∧ s1.player = s2.player ∧ s1.gameOver = s2.gameOver ∧
    s1.score = s2.score ∧ s1.bulletMode = Mode.normal ∧
    s1.bullets.map Bullet.core = s2.bullets.map Bullet.core ∧
    (∀ b ∈ s1.bullets, StraightUp H b) ∧ s1.player.y ≤ H

/-- A state in normal mode on an 800 x 600 canvas that still holds a bullet fired to the
left (`dx = -2`) by the earlier `shoot` while the spread mode was active. -/
def leftoverSpreadState : State :=
  { initialState 800 600 with bullets := [flyer 397 500 (-2) (-7) 0] }

/-- The initial 800 x 600 state with the fire key held. -/
def fireState : State :=
  { initialState 800 600 with keys := fun c => decide (c = "Space") }

/-- The invariant of a zigzag enemy in an arena wider than `size + speed`, for exact
arithmetic: moving right it is less than one step left of the left wall and its right
side is inside the arena; moving left it is right of the left wall and its right side
is less than one step beyond the right wall. -/
def ZigzagOk (W : ℚ) (e : Enemy) : Prop :=
  0 < e.speed ∧ e.size + e.speed < W ∧
    ((e.zigzagDirection = 1 ∧ -e.speed < e.x ∧ e.x + e.size < W) ∨
      (e.zigzagDirection = -1 ∧ 0 < e.x ∧ e.x + e.size < W + e.speed))

/-- The call of `updateEnemies` that processes `e` flips its `zigzagDirection`, in exact
arithmetic. -/
def flipsDirection (W : ℚ) (e : Enemy) : Prop :=
  (enemyStep W e).zigzagDirection ≠ e.zigzagDirection

/-- The zigzag enemy that `spawnEnemy` pushes on an 800 wide canvas for the draws
size 0 (size 30), position 1/2 (x = 385) and speed 0 (speed 1). -/
def zigzagSpawn : Enemy :=
  { x := 385, y := -30, size := 30, speed := 1, color := "#a00", pattern := Pattern.zigzag,
    zigzagDirection := 1 }

/-- The finite binary64 numbers, the values a JavaScript number holds: `m * 2 ^ e` with
`|m| < 2 ^ 53` and `-1074 ≤ e ≤ 971`. -/
def Binary64 (q : ℚ) : Prop :=
  ∃ m e : ℤ, |m| < 2 ^ 53 ∧ -1074 ≤ e ∧ e ≤ 971 ∧ q = m * (2 : ℚ) ^ e

/-- What is assumed of the rounding `fl` of an arithmetic result: below the overflow
threshold, `fl q` is a binary64 number and no binary64 number is nearer to the exact
result `q` (round to nearest, whatever the rule for ties). -/
def RoundsToNearest (fl : ℚ → ℚ) : Prop :=
  ∀ q : ℚ, |q| ≤ 2 ^ 1023 → Binary64 (fl q) ∧ ∀ r : ℚ, Binary64 r → |fl q - q| ≤ |r - q|

/-- The call of `updateEnemies` that processes `e` flips its `zigzagDirection`, with the
arithmetic rounded by `fl`. -/
def flipsDirectionRounded (fl : ℚ → ℚ) (W : ℚ) (e : Enemy) : Prop :=
  (enemyStepRounded fl W e).zigzagDirection ≠ e.zigzagDirection

/-- A zigzag enemy on an 800 wide canvas that touches the right wall: `x = 800 - size`. -/
def wallEnemy : Enemy :=
  { x := 770, y := -30, size := 30, speed := 1, color := "#a00", pattern := Pattern.zigzag,
    zigzagDirection := 1 }

/-- The zigzag enemy that `spawnEnemy` pushes on a 300 wide canvas for the draws
0.7 (size 44), `1 - 2 ^ -53` (x one binary64 step below 256) and `5 * 2 ^ -54`
(speed one binary64 step above 1). -/
def stickyEnemy : Enemy :=
  { x := 256 - 1 / 2 ^ 45, y := -44, size := 44, speed := 1 + 1 / 2 ^ 52, color := "#a00",
    pattern := Pattern.zigzag, zigzagDirection := 1 }

/-- The rounding `fl` leaves every binary64 number as it is, as the rounding of an
arithmetic result that is itself a binary64 number does. -/
def ExactOnBinary64 (fl : ℚ → ℚ) : Prop :=
  ∀ q : ℚ, Binary64 q → fl q = q

/-- A zigzag enemy whose motion is computed without rounding: the invariant `ZigzagOk`
with `x`, `size` and `speed` integers, `size` not negative. -/
def ExactZigzag (W : ℚ) (e : Enemy) : Prop :=
  e.pattern = Pattern.zigzag ∧ ZigzagOk W e ∧ 0 ≤ e.size ∧
    (∃ a : ℤ, e.x = a) ∧ (∃ b : ℤ, e.size = b) ∧ (∃ c : ℤ, e.speed = c)

/-- The states of `stickyEnemy` on a 300 wide canvas: at its start or at `x = 256` moving
right, at `x = 257` moving left. -/
def StickyAt (e : Enemy) : Prop :=
  e.pattern = Pattern.zigzag ∧ e.size = 44 ∧ e.speed = 1 + 1 / 2 ^ 52 ∧
    ((e.zigzagDirection = 1 ∧ (e.x = 256 - 1 / 2 ^ 45 ∨ e.x = 256)) ∨
      (e.zigzagDirection = -1 ∧ e.x = 257))

/-! # Properties

All definitions are above this line; what follows are lemmas and the theorems of the
claims. -/

/-! ## Generic facts about `forEach` -/

theorem forEachFrom_preserves {σ α : Type} (arr : σ → List α) (f : α → Nat → σ → σ)
    (P : σ → Prop) (hf : ∀ a k s, P s → P (f a k s)) :
    ∀ n k s, P s → P (forEachFrom arr f n k s) := by
  intro n
  induction n with
  | zero => intro k s hs; simpa [forEachFrom] using hs
  | succ n ih =>
    intro k s hs
    rw [forEachFrom]
    apply ih
    cases (arr s)[k]? with
    | none => exact hs
    | some a => exact hf a k s hs

theorem forEach_preserves {σ α : Type} (arr : σ → List α) (f : α → Nat → σ → σ)
    (P : σ → Prop) (hf : ∀ a k s, P s → P (f a k s)) (s : σ) (hs : P s) :
    P (forEach arr f s) :=
  forEachFrom_preserves arr f P hf _ _ s hs

theorem forEachFrom_fixed {σ α : Type} (arr : σ → List α) (f : α → Nat → σ → σ)
    (P : σ → Prop) (hf : ∀ a k s, P s → f a k s = s) :
    ∀ n k s, P s → forEachFrom arr f n k s = s := by
  intro n
  induction n with
  | zero => intro k s _; simp [forEachFrom]
  | succ n ih =>
    intro k s hs
    rw [forEachFrom]
    cases h : (arr s)[k]? with
    | none => exact ih _ _ hs
    | some a =>
      simp only []
      rw [hf a k s hs]
      exact ih _ _ hs

theorem forEachFrom_nil {σ α : Type} (arr : σ → List α) (f : α → Nat → σ → σ) :
    ∀ n k s, arr s = [] → forEachFrom arr f n k s = s := by
  intro n
  induction n with
  | zero => intro k s _; simp [forEachFrom]
  | succ n ih =>
    intro k s hs
    rw [forEachFrom]
    simp only [hs, List.getElem?_nil]
    exact ih _ _ hs

/-! ## The invariant of the counters -/

theorem updateScoreUI_ok (s : State) (h : CountersOk s) : CountersOk (updateScoreUI s) := by
  unfold updateScoreUI
  split
  · exact h
  · exact h

theorem createExplosion_ok (now : Int) (x y : ℚ) (s : State) (h : CountersOk s) :
    CountersOk (createExplosion now x y s) := h

theorem activatePowerUp_ok (now : Int) (i : Fin 3) (p : PowerUp) (s : State)
    (h : CountersOk s) : CountersOk (activatePowerUp now i p s) := by
  obtain ⟨h1, h2, h3⟩ := h
  unfold activatePowerUp
  simp only []
  split_ifs <;> refine ⟨h1, ?_, ?_⟩ <;> intros <;> (try simp_all) <;> (try omega)

theorem updateEnemiesBody_ok (W H : ℚ) (e : Enemy) (k : Nat) (s : State) (h : CountersOk s) :
    CountersOk (updateEnemiesBody W H e k s) := by
  obtain ⟨h1, h2, h3⟩ := h
  unfold updateEnemiesBody triggerGameOver
  simp only []
  split_ifs <;> refine ⟨h1, ?_, ?_⟩ <;> intros <;> (try simp_all) <;> (try omega)

theorem enemyPlayerBody_ok (now : Int) (e : Enemy) (k : Nat) (s : State) (h : CountersOk s) :
    CountersOk (enemyPlayerBody now e k s) := by
  obtain ⟨h1, h2, h3⟩ := h
  unfold enemyPlayerBody triggerGameOver createExplosion
  simp only []
  split_ifs <;> refine ⟨h1, ?_, ?_⟩ <;> intros <;> (try simp_all) <;> (try omega)

theorem movePlayer_ok (W H : ℚ) (s : State) (h : CountersOk s) :
    CountersOk (movePlayer W H s) := h

theorem shoot_ok (now : Int) (s : State) (h : CountersOk s) : CountersOk (shoot now s) := by
  unfold shoot
  split
  · apply updateScoreUI_ok
    exact ⟨le_max_left _ _, h.2.1, h.2.2⟩
  · exact h

theorem updateBullets_ok (s : State) (h : CountersOk s) : CountersOk (updateBullets s) := by
  unfold updateBullets
  apply forEach_preserves _ _ CountersOk _ s h
  intro b k t ht
  unfold updateBulletsBody
  simp only []
  split
  · exact ht
  · exact ht

theorem updateEnemies_ok (W H : ℚ) (s : State) (h : CountersOk s) :
    CountersOk (updateEnemies W H s) :=
  forEach_preserves _ _ CountersOk (fun e k t ht => updateEnemiesBody_ok W H e k t ht) s h

theorem updatePowerUps_ok (H : ℚ) (now : Int) (draw : Nat → Fin 3) (s : State)
    (h : CountersOk s) : CountersOk (updatePowerUps H now draw s) := by
  unfold updatePowerUps
  apply forEach_preserves _ _ CountersOk _ s h
  intro p k t ht
  unfold updatePowerUpsBody
  simp only []
  split_ifs <;> first | exact ht | exact activatePowerUp_ok _ _ _ _ ht

theorem updateCompanions_ok (now : Int) (s : State) (h : CountersOk s) :
    CountersOk (updateCompanions now s) := by
  unfold updateCompanions
  apply forEach_preserves _ _ CountersOk _ s h
  intro c k t ht
  simp only []
  split
  · exact ht
  · exact ht

theorem updateExplosions_ok (now : Int) (s : State) (h : CountersOk s) :
    CountersOk (updateExplosions now s) := h

theorem updatePowerUpStatus_ok (now : Int) (s : State) (h : CountersOk s) :
    CountersOk (updatePowerUpStatus now s) := by
  unfold updatePowerUpStatus
  split
  · exact h
  · exact h

theorem bulletEnemyBody_ok (now : Int) (b : Bullet) (i : Nat) (e : Enemy) (k : Nat) (s : State)
    (h : CountersOk s) : CountersOk (bulletEnemyBody now b i e k s) := by
  unfold bulletEnemyBody
  split
  · apply createExplosion_ok
    apply updateScoreUI_ok
    exact ⟨by have := h.1; show 0 ≤ s.score + 10; omega, h.2.1, h.2.2⟩
  · exact h

theorem bulletEnemyPass_ok (now : Int) (s : State) (h : CountersOk s) :
    CountersOk (bulletEnemyPass now s) := by
  unfold bulletEnemyPass
  apply forEach_preserves _ _ CountersOk _ s h
  intro b i t ht
  exact forEach_preserves _ _ CountersOk (fun e k u hu => bulletEnemyBody_ok now b i e k u hu) t ht

theorem enemyPlayerPass_ok (now : Int) (s : State) (h : CountersOk s) :
    CountersOk (enemyPlayerPass now s) :=
  forEach_preserves _ _ CountersOk (fun e k t ht => enemyPlayerBody_ok now e k t ht) s h

theorem checkCompanionBulletCollisions_ok (now : Int) (s : State) (h : CountersOk s) :
    CountersOk (checkCompanionBulletCollisions now s) := by
  unfold checkCompanionBulletCollisions
  apply forEach_preserves _ _ CountersOk _ s h
  intro c ci t1 h1
  apply forEach_preserves _ _ CountersOk _ t1 h1
  intro b bi t2 h2
  apply forEach_preserves _ _ CountersOk _ t2 h2
  intro e ei t3 h3
  split
  · apply createExplosion_ok
    apply updateScoreUI_ok
    exact ⟨by have := h3.1; show 0 ≤ t3.score + 15; omega, h3.2.1, h3.2.2⟩
  · exact h3

theorem checkCollisions_ok (now : Int) (s : State) (h : CountersOk s) :
    CountersOk (checkCollisions now s) :=
  checkCompanionBulletCollisions_ok now _
    (enemyPlayerPass_ok now _ (bulletEnemyPass_ok now s h))

theorem spawnEnemy_ok (W : ℚ) (i : Fin 3) (a b c : ℚ) (s : State) (h : CountersOk s) :
    CountersOk (spawnEnemy W i a b c s) := by
  unfold spawnEnemy
  split
  · exact h
  · exact h

theorem spawnPowerUp_ok (W r : ℚ) (s : State) (h : CountersOk s) :
    CountersOk (spawnPowerUp W r s) := by
  unfold spawnPowerUp
  split
  · exact h
  · exact h

theorem spawnCompanionPowerUp_ok (W r : ℚ) (s : State) (h : CountersOk s) :
    CountersOk (spawnCompanionPowerUp W r s) := by
  unfold spawnCompanionPowerUp
  split
  · exact h
  · exact h

theorem spawnHealthPowerUp_ok (W r : ℚ) (s : State) (h : CountersOk s) :
    CountersOk (spawnHealthPowerUp W r s) := by
  unfold spawnHealthPowerUp
  split
  · exact h
  · exact h

theorem convertCharge_ok (s : State) (h : CountersOk s) : CountersOk (convertCharge s) := by
  obtain ⟨h1, h2, h3⟩ := h
  unfold convertCharge
  split_ifs <;> refine ⟨h1, ?_, ?_⟩ <;> intros <;> (try simp_all) <;> (try omega)

theorem keydown_ok (code : String) (s : State) (h : CountersOk s) :
    CountersOk (keydown code s) := by
  unfold keydown
  simp only []
  split
  · exact convertCharge_ok _ h
  · exact h

theorem keyup_ok (code : String) (s : State) (h : CountersOk s) :
    CountersOk (keyup code s) := h

theorem restartGame_ok (W H : ℚ) (s : State) : CountersOk (restartGame W H s) := by
  unfold restartGame
  apply updateScoreUI_ok
  refine ⟨le_refl _, ?_, ?_⟩
  · show (3 : Int) ≤ 5
    decide
  · intro _
    show (1 : Int) ≤ 3
    decide

theorem applyOp_ok (W H : ℚ) (op : Op) (s : State) (h : CountersOk s) :
    CountersOk (applyOp W H op s) := by
  cases op with
  | movePlayer => exact movePlayer_ok W H s h
  | shoot now => exact shoot_ok now s h
  | updateBullets => exact updateBullets_ok s h
  | updateEnemies => exact updateEnemies_ok W H s h
  | updatePowerUps now draw => exact updatePowerUps_ok H now draw s h
  | updateCompanions now => exact updateCompanions_ok now s h
  | updateExplosions now => exact updateExplosions_ok now s h
  | updatePowerUpStatus now => exact updatePowerUpStatus_ok now s h
  | checkCollisions now => exact checkCollisions_ok now s h
  | spawnEnemy i a b c => exact spawnEnemy_ok W i a b c s h
  | spawnPowerUp r => exact spawnPowerUp_ok W r s h
  | spawnCompanionPowerUp r => exact spawnCompanionPowerUp_ok W r s h
  | spawnHealthPowerUp r => exact spawnHealthPowerUp_ok W r s h
  | keydown code => exact keydown_ok code s h
  | keyup code => exact keyup_ok code s h
  | restartGame => exact restartGame_ok W H s

theorem run_ok (W H : ℚ) (ops : List Op) :
    ∀ s, CountersOk s → CountersOk (run W H ops s) := by
  induction ops with
  | nil => intro s h; exact h
  | cons op rest ih =>
    intro s h
    exact ih _ (applyOp_ok W H op s h)

theorem initialState_ok (W H : ℚ) : CountersOk (initialState W H) := by
  refine ⟨le_refl _, ?_, ?_⟩
  · show (3 : Int) ≤ 5
    decide
  · intro _
    show (1 : Int) ≤ 3
    decide

theorem reachable_ok (W H : ℚ) (s : State) (h : Reachable W H s) : CountersOk s := by
  obtain ⟨ops, rfl⟩ := h
  exact run_ok W H ops _ (initialState_ok W H)

/-! ## `updateEnemies`: the loop on a segment of enemies that stay above the bottom -/

theorem forEachFrom_out_of_range {σ α : Type} (arr : σ → List α) (f : α → Nat → σ → σ) :
    ∀ n k s, (arr s).length ≤ k → forEachFrom arr f n k s = s := by
  intro n
  induction n with
  | zero => intro k s _; simp [forEachFrom]
  | succ n ih =>
    intro k s hk
    rw [forEachFrom, List.getElem?_eq_none hk]
    exact ih (k + 1) s (Nat.le_succ_of_le hk)

theorem forEachFrom_add {σ α : Type} (arr : σ → List α) (f : α → Nat → σ → σ) :
    ∀ a b k s, forEachFrom arr f (a + b) k s = forEachFrom arr f b (k + a) (forEachFrom arr f a k s) := by
  intro a
  induction a with
  | zero => intro b k s; simp [forEachFrom]
  | succ a ih =>
    intro b k s
    rw [Nat.succ_add, forEachFrom, forEachFrom, ih]
    congr 1
    omega

theorem enemyStep_y (W : ℚ) (e : Enemy) : (enemyStep W e).y = e.y + e.speed := by
  unfold enemyStep
  simp only []
  split_ifs <;> rfl

theorem updateEnemiesBody_stay (W H : ℚ) (e : Enemy) (k : Nat) (s : State)
    (h : e.y + e.speed ≤ H) :
    updateEnemiesBody W H e k s = { s with enemies := s.enemies.set k (enemyStep W e) } := by
  unfold updateEnemiesBody
  simp only [enemyStep_y]
  rw [if_neg (not_lt.mpr h)]

theorem updateEnemies_segment (W H : ℚ) :
    ∀ (mid done tail : List Enemy) (s : State), s.enemies = done ++ mid ++ tail →
      (∀ e ∈ mid, e.y + e.speed ≤ H) →
      forEachFrom (fun t : State => t.enemies) (updateEnemiesBody W H) mid.length done.length s =
        { s with enemies := done ++ mid.map (enemyStep W) ++ tail } := by
  intro mid
  induction mid with
  | nil =>
    intro done tail s hs _
    simp only [List.length_nil, forEachFrom, List.map_nil]
    rw [← hs]
  | cons e mid ih =>
    intro done tail s hs hmid
    have hget : s.enemies[done.length]? = some e := by
      rw [hs, List.append_assoc, List.getElem?_append_right (le_refl _)]
      simp
    rw [List.length_cons, forEachFrom]
    simp only [hget]
    rw [updateEnemiesBody_stay W H e _ s (hmid e (List.mem_cons_self _ _))]
    have hset : s.enemies.set done.length (enemyStep W e) =
        (done ++ [enemyStep W e]) ++ mid ++ tail := by
      rw [hs]; simp
    have := ih (done ++ [enemyStep W e]) tail
      { s with enemies := s.enemies.set done.length (enemyStep W e) } hset
      (fun x hx => hmid x (List.mem_cons_of_mem _ hx))
    simp only [List.length_append, List.length_singleton] at this
    rw [this]
    simp

theorem updateEnemiesBody_exit (W H : ℚ) (e : Enemy) (k : Nat) (s : State)
    (h : e.y + e.speed > H) :
    updateEnemiesBody W H e k s =
      (if s.health - 1 ≤ 0 then
        { s with enemies := (s.enemies.set k (enemyStep W e)).eraseIdx k,
                 health := s.health - 1, gameOver := true }
      else
        { s with enemies := (s.enemies.set k (enemyStep W e)).eraseIdx k,
                 health := s.health - 1 }) := by
  unfold updateEnemiesBody triggerGameOver
  simp only [enemyStep_y]
  rw [if_pos h]

theorem eraseIdx_set_middle {α : Type} (pre post : List α) (a b : α) :
    ((pre ++ a :: post).set pre.length b).eraseIdx pre.length = pre ++ post := by
  induction pre with
  | nil => simp
  | cons x pre ih => simpa using ih

/-- C5: when health is 1 and exactly one enemy `e` of `enemies = pre ++ e :: post` ends
its move below the bottom edge (`e.y + e.speed > H`, every other enemy stays at or
above it), `updateEnemies` removes `e`, leaves health 0 and sets `gameOver`; the
enemies before `e` have moved, the enemy right after `e` is skipped by the loop and
the ones after it have moved. -/
theorem C5_updateEnemies_last_health (W H : ℚ) (s : State) (pre post : List Enemy) (e : Enemy)
    (henemies : s.enemies = pre ++ e :: post) (hhealth : s.health = 1)
    (he : e.y + e.speed > H)
    (hpre : ∀ x ∈ pre, x.y + x.speed ≤ H) (hpost : ∀ x ∈ post, x.y + x.speed ≤ H) :
    updateEnemies W H s =
      { s with
        enemies := pre.map (enemyStep W) ++ post.take 1 ++ (post.drop 1).map (enemyStep W)
        health := 0
        gameOver := true } := by
  unfold updateEnemies forEach
  have hlen : s.enemies.length = pre.length + (post.length + 1) := by
    rw [henemies]; simp
  simp only [hlen]
  rw [forEachFrom_add]
  have h1 := updateEnemies_segment W H pre [] (e :: post) s (by simpa using henemies) hpre
  simp only [List.length_nil, List.nil_append] at h1
  rw [h1, forEachFrom]
  have hget : (pre.map (enemyStep W) ++ e :: post)[0 + pre.length]? = some e := by
    rw [Nat.zero_add, List.getElem?_append_right (by simp)]
    simp
  simp only [hget]
  rw [updateEnemiesBody_exit W H e _ _ he]
  simp only [hhealth]
  have hmid := eraseIdx_set_middle (pre.map (enemyStep W)) post e (enemyStep W e)
  simp only [List.length_map] at hmid
  simp only [Nat.zero_add, hmid]
  rw [if_pos (by decide)]
  cases post with
  | nil =>
    simp [forEachFrom]
  | cons p ps =>
    have h2 := updateEnemies_segment W H ps (pre.map (enemyStep W) ++ [p]) []
      { s with enemies := pre.map (enemyStep W) ++ p :: ps, health := 1 - 1, gameOver := true }
      (by simp) (fun x hx => hpost x (List.mem_cons_of_mem _ hx))
    simp only [List.length_append, List.length_map, List.length_singleton] at h2
    rw [List.length_cons, forEachFrom_add, h2]
    rw [forEachFrom_out_of_range _ _ _ _ _ (by simp; omega)]
    simp

theorem updateEnemies_all_stay (W H : ℚ) (s : State)
    (h : ∀ e ∈ s.enemies, e.y + e.speed ≤ H) :
    updateEnemies W H s = { s with enemies := s.enemies.map (enemyStep W) } := by
  unfold updateEnemies forEach
  have := updateEnemies_segment W H s.enemies [] [] s (by simp) h
  simpa using this

theorem enemyStep_not_zigzag (W : ℚ) (e : Enemy) (h : e.pattern ≠ Pattern.zigzag) :
    enemyStep W e = { e with y := e.y + e.speed } := by
  unfold enemyStep
  simp only [if_neg h]

theorem run_append (W H : ℚ) (a b : List Op) (s : State) :
    run W H (a ++ b) s = run W H b (run W H a s) := by
  simp [run, List.foldl_append]

theorem run_updateEnemies_replicate (W H : ℚ) :
    ∀ (n : Nat) (s : State),
      (∀ e ∈ s.enemies, e.pattern ≠ Pattern.zigzag ∧ 0 ≤ e.speed ∧ e.y + n * e.speed ≤ H) →
      run W H (List.replicate n Op.updateEnemies) s =
        { s with enemies := s.enemies.map (fun e => { e with y := e.y + n * e.speed }) } := by
  intro n
  induction n with
  | zero =>
    intro s _
    simp [run]
  | succ n ih =>
    intro s h
    have hstay : ∀ e ∈ s.enemies, e.y + e.speed ≤ H := by
      intro e he
      obtain ⟨_, h2, h3⟩ := h e he
      have : (0 : ℚ) ≤ (n : ℚ) * e.speed := mul_nonneg (Nat.cast_nonneg n) h2
      push_cast at h3
      linarith
    have hstep : updateEnemies W H s =
        { s with enemies := s.enemies.map (fun e => { e with y := e.y + e.speed }) } := by
      rw [updateEnemies_all_stay W H s hstay]
      congr 1
      apply List.map_congr_left
      intro e he
      exact enemyStep_not_zigzag W e (h e he).1
    rw [List.replicate_succ]
    show run W H (List.replicate n Op.updateEnemies) (updateEnemies W H s) = _
    rw [hstep, ih]
    · simp only [List.map_map]
      congr 1
      apply List.map_congr_left
      intro e _
      simp only [Function.comp]
      congr 1
      push_cast
      ring
    · intro x hx
      simp only [List.mem_map] at hx
      obtain ⟨e, he, rfl⟩ := hx
      obtain ⟨h1, h2, h3⟩ := h e he
      refine ⟨h1, h2, ?_⟩
      push_cast at h3
      show e.y + e.speed + n * e.speed ≤ H
      linarith

theorem run_edge_spawns :
    run 300 150 (List.replicate 7 (Op.spawnEnemy 2 0 0 (1 / 2))) (initialState 300 150) =
      { initialState 300 150 with enemies := List.replicate 7 edgeEnemy } := by
  simp [run, applyOp, spawnEnemy, initialState, enemyTypes, randomRange, edgeEnemy,
    List.replicate]
  norm_num

/-- C1 (counterexample): on a 300 x 150 canvas, seven enemies spawned with the same
draws reach the bottom edge together; the call of `updateEnemies` that moves them
below it removes four of them (the other three are skipped by the loop) and
takes health from 3 to -1.  So a reachable state has health outside [0, 5]. -/
theorem C1_health_below_zero :
    Reachable 300 150 (run 300 150 edgeOps (initialState 300 150)) ∧
      (run 300 150 edgeOps (initialState 300 150)).health = -1 := by
  refine ⟨⟨edgeOps, rfl⟩, ?_⟩
  unfold edgeOps
  rw [run_append, run_append, run_edge_spawns, run_updateEnemies_replicate]
  · norm_num [run, applyOp, updateEnemies, forEach, forEachFrom, updateEnemiesBody, enemyStep_y,
      edgeEnemy, triggerGameOver, initialState, List.replicate]
  · intro e he
    simp only [List.mem_replicate] at he
    rw [he.2]
    simp [edgeEnemy]
    norm_num

/-! ## Claims C1 and C2: the counters in reachable states -/

/-- C1 (amended): in every state reachable from the initial state by the tick
operations, the spawn callbacks, the key handlers and restarts, health is at most 5,
and health is at least 1 as long as `gameOver` is false. -/
theorem C1_health_bounds (W H : ℚ) (s : State) (h : Reachable W H s) :
    s.health ≤ 5 ∧ (s.gameOver = false → 1 ≤ s.health) :=
  (reachable_ok W H s h).2

/-- C1 (amended) at the state reached by one spawn and one `updateEnemies`. -/
theorem C1_health_bounds_witness :
    Reachable 300 150
        (run 300 150 [Op.spawnEnemy 2 0 0 (1 / 2), Op.updateEnemies] (initialState 300 150)) ∧
      (run 300 150 [Op.spawnEnemy 2 0 0 (1 / 2), Op.updateEnemies] (initialState 300 150)).health
        ≤ 5 ∧
      ((run 300 150 [Op.spawnEnemy 2 0 0 (1 / 2), Op.updateEnemies]
          (initialState 300 150)).gameOver = false →
        1 ≤ (run 300 150 [Op.spawnEnemy 2 0 0 (1 / 2), Op.updateEnemies]
          (initialState 300 150)).health) :=
  ⟨⟨_, rfl⟩, C1_health_bounds 300 150 _ ⟨_, rfl⟩⟩

/-- C2: in every state reachable from the initial state by the tick operations
(among them `shoot` and `checkCollisions` with its companion-bullet pass), the spawn
callbacks, the key handlers and restarts, the score is not negative. -/
theorem C2_score_nonneg (W H : ℚ) (s : State) (h : Reachable W H s) : 0 ≤ s.score :=
  (reachable_ok W H s h).1

/-- C2 at the state reached by pressing the fire key and one call of `shoot`. -/
theorem C2_score_nonneg_witness :
    Reachable 800 600
        (run 800 600 [Op.keydown "Space", Op.shoot 1000] (initialState 800 600)) ∧
      0 ≤ (run 800 600 [Op.keydown "Space", Op.shoot 1000] (initialState 800 600)).score :=
  ⟨⟨_, rfl⟩, C2_score_nonneg 800 600 _ ⟨_, rfl⟩⟩

/-! ## Claims C3 and C4: the bullet-versus-enemy pass -/

/-- C3 (the code at the failing input): with bullets `[b1, b2]` and enemies
`[e1, e2, e3]`, where `b1` overlaps `e1` and `e3` and `b2` overlaps no enemy, the
bullet-versus-enemy pass removes both bullets and both `e1` and `e3`: after `b1`
has been spliced out it still destroys `e3`, and `bullets.splice(0, 1)` then removes
`b2` in its place. -/
theorem C3_stale_index_removes_other_bullet :
    (bulletEnemyPass 0 staleIndexState).bullets = [] ∧
      (bulletEnemyPass 0 staleIndexState).enemies = [plainEnemy 400 50] ∧
      (bulletEnemyPass 0 staleIndexState).score = 20 ∧
      ¬ bulletHitsEnemy (plainBullet 200 300) (plainEnemy 90 5) ∧
      ¬ bulletHitsEnemy (plainBullet 200 300) (plainEnemy 400 50) ∧
      ¬ bulletHitsEnemy (plainBullet 200 300) (plainEnemy 95 8) := by
  norm_num [bulletEnemyPass, forEach, forEachFrom, bulletEnemyBody, bulletHitsEnemy,
    staleIndexState, plainBullet, plainEnemy, initialState, createExplosion, updateScoreUI]

theorem checkCompanionBulletCollisions_no_enemies (now : Int) (s : State)
    (h : s.enemies = []) : checkCompanionBulletCollisions now s = s := by
  unfold checkCompanionBulletCollisions forEach
  apply forEachFrom_fixed _ _ (fun t : State => t.enemies = []) _ _ _ s h
  intro c ci t1 h1
  apply forEachFrom_fixed _ _ (fun t : State => t.enemies = []) _ _ _ t1 h1
  intro b bi t2 h2
  simp only [h2, List.length_nil, forEachFrom]

theorem enemyPlayerPass_no_enemies (now : Int) (s : State) (h : s.enemies = []) :
    enemyPlayerPass now s = s := by
  unfold enemyPlayerPass forEach
  simp only [h, List.length_nil, forEachFrom]

/-- C4: when `bullets` holds exactly one bullet `b` and `enemies` exactly one enemy
`e`, and `b` overlaps `e` (axis-aligned box test), `checkCollisions` leaves both
lists empty, adds exactly 10 to the score, appends exactly one explosion, centred at
`(e.x + e.size / 2, e.y + e.size / 2)`, and leaves health unchanged. -/
theorem C4_single_hit (now : Int) (s : State) (b : Bullet) (e : Enemy)
    (hb : s.bullets = [b]) (he : s.enemies = [e])
    (hx1 : b.x < e.x + e.size) (hx2 : b.x + b.width > e.x)
    (hy1 : b.y < e.y + e.size) (hy2 : b.y + b.height > e.y) :
    (checkCollisions now s).bullets = [] ∧
      (checkCollisions now s).enemies = [] ∧
      (checkCollisions now s).score = s.score + 10 ∧
      (checkCollisions now s).explosions = s.explosions ++
        [{ x := e.x + e.size / 2, y := e.y + e.size / 2, radius := 30, startTime := now,
           duration := 500 }] ∧
      (checkCollisions now s).health = s.health := by
  have hhit : bulletHitsEnemy b e := ⟨hx1, hx2, hy1, hy2⟩
  have hpass : bulletEnemyPass now s =
      createExplosion now (e.x + e.size / 2) (e.y + e.size / 2)
        (updateScoreUI { s with bullets := [], enemies := [], score := s.score + 10 }) := by
    unfold bulletEnemyPass forEach
    simp only [hb, he, List.length_singleton, forEachFrom, List.getElem?_cons_zero,
      bulletEnemyBody, if_pos hhit, List.eraseIdx_cons_zero]
  have hnone : (bulletEnemyPass now s).enemies = [] := by
    rw [hpass]
    unfold createExplosion updateScoreUI
    split <;> rfl
  unfold checkCollisions
  rw [enemyPlayerPass_no_enemies now _ hnone,
    checkCompanionBulletCollisions_no_enemies now _ hnone, hpass]
  unfold createExplosion updateScoreUI
  split <;> simp

/-- C4 at the example of the specification: bullet (97, 10, 6, 12) against the enemy
of size 30 at (90, 5) gives one explosion at (105, 20). -/
theorem C4_single_hit_witness :
    (checkCollisions 0 exampleHitState).bullets = [] ∧
      (checkCollisions 0 exampleHitState).enemies = [] ∧
      (checkCollisions 0 exampleHitState).score = 10 ∧
      (checkCollisions 0 exampleHitState).explosions =
        [{ x := 105, y := 20, radius := 30, startTime := 0, duration := 500 }] ∧
      (checkCollisions 0 exampleHitState).health = 3 := by
  have h := C4_single_hit 0 exampleHitState (plainBullet 97 10) (plainEnemy 90 5) rfl rfl
    (by norm_num [plainBullet, plainEnemy]) (by norm_num [plainBullet, plainEnemy])
    (by norm_num [plainBullet, plainEnemy]) (by norm_num [plainBullet, plainEnemy])
  have hx : (plainEnemy 90 5).x + (plainEnemy 90 5).size / 2 = 105 := by
    norm_num [plainEnemy]
  have hy : (plainEnemy 90 5).y + (plainEnemy 90 5).size / 2 = 20 := by
    norm_num [plainEnemy]
  rw [hx, hy] at h
  exact h

/-- C5 at `lastHealthState`: the enemy at y = 149 leaves, health goes from 1 to 0 and
`gameOver` is set. -/
theorem C5_updateEnemies_last_health_witness :
    (updateEnemies 300 150 lastHealthState).health = 0 ∧
      (updateEnemies 300 150 lastHealthState).gameOver = true ∧
      (updateEnemies 300 150 lastHealthState).enemies =
        [plainEnemy 10 22, plainEnemy 100 30, plainEnemy 200 42] := by
  have h := C5_updateEnemies_last_health 300 150 lastHealthState [plainEnemy 10 20]
    [plainEnemy 100 30, plainEnemy 200 40] (plainEnemy 50 149) rfl rfl
    (by norm_num [plainEnemy]) (by norm_num [plainEnemy]) (by norm_num [plainEnemy])
  rw [h]
  simp [enemyStep, plainEnemy]
  norm_num

/-! ## Claim C6: a tick on a game-over state -/

theorem movePlayer_gameOver (W H : ℚ) (s : State) :
    (movePlayer W H s).gameOver = s.gameOver := rfl

theorem shoot_of_gameOver (now : Int) (s : State) (h : s.gameOver = true) :
    shoot now s = s := by
  unfold shoot shotTriggered
  simp [h]

theorem updateBullets_stays_over (s : State) (h : s.gameOver = true) :
    (updateBullets s).gameOver = true := by
  unfold updateBullets
  apply forEach_preserves _ _ (fun t : State => t.gameOver = true) _ s h
  intro b k t ht
  unfold updateBulletsBody
  simp only []
  split_ifs <;> exact ht

theorem updateEnemies_stays_over (W H : ℚ) (s : State) (h : s.gameOver = true) :
    (updateEnemies W H s).gameOver = true := by
  unfold updateEnemies
  apply forEach_preserves _ _ (fun t : State => t.gameOver = true) _ s h
  intro e k t ht
  unfold updateEnemiesBody triggerGameOver
  simp only []
  split_ifs <;> first | exact ht | rfl

theorem activatePowerUp_gameOver (now : Int) (i : Fin 3) (p : PowerUp) (s : State) :
    (activatePowerUp now i p s).gameOver = s.gameOver := by
  unfold activatePowerUp
  simp only []
  split_ifs <;> rfl

theorem updatePowerUps_stays_over (H : ℚ) (now : Int) (draw : Nat → Fin 3) (s : State)
    (h : s.gameOver = true) : (updatePowerUps H now draw s).gameOver = true := by
  unfold updatePowerUps
  apply forEach_preserves _ _ (fun t : State => t.gameOver = true) _ s h
  intro p k t ht
  unfold updatePowerUpsBody
  simp only []
  split_ifs <;> first | exact ht | (rw [activatePowerUp_gameOver]; exact ht)

theorem updateCompanions_stays_over (now : Int) (s : State) (h : s.gameOver = true) :
    (updateCompanions now s).gameOver = true := by
  unfold updateCompanions
  apply forEach_preserves _ _ (fun t : State => t.gameOver = true) _ s h
  intro c k t ht
  simp only []
  split_ifs <;> exact ht

theorem updatePowerUpStatus_gameOver (now : Int) (s : State) :
    (updatePowerUpStatus now s).gameOver = s.gameOver := by
  unfold updatePowerUpStatus
  split_ifs <;> rfl

theorem updateScoreUI_gameOver (s : State) : (updateScoreUI s).gameOver = s.gameOver := by
  unfold updateScoreUI
  split_ifs <;> rfl

theorem checkCollisions_stays_over (now : Int) (s : State) (h : s.gameOver = true) :
    (checkCollisions now s).gameOver = true := by
  unfold checkCollisions checkCompanionBulletCollisions enemyPlayerPass bulletEnemyPass
  apply forEach_preserves _ _ (fun t : State => t.gameOver = true)
  · intro c ci t1 h1
    apply forEach_preserves _ _ (fun t : State => t.gameOver = true) _ t1 h1
    intro b bi t2 h2
    apply forEach_preserves _ _ (fun t : State => t.gameOver = true) _ t2 h2
    intro e ei t3 h3
    split_ifs
    · show (updateScoreUI _).gameOver = true
      rw [updateScoreUI_gameOver]
      exact h3
    · exact h3
  · apply forEach_preserves _ _ (fun t : State => t.gameOver = true)
    · intro e k t ht
      unfold enemyPlayerBody triggerGameOver createExplosion
      simp only []
      split_ifs <;> first | exact ht | rfl
    · apply forEach_preserves _ _ (fun t : State => t.gameOver = true) _ s h
      intro b bi t1 h1
      apply forEach_preserves _ _ (fun t : State => t.gameOver = true) _ t1 h1
      intro e ei t2 h2
      unfold bulletEnemyBody
      split_ifs
      · show (updateScoreUI _).gameOver = true
        rw [updateScoreUI_gameOver]
        exact h2
      · exact h2

theorem tickUpdates_stays_over (W H : ℚ) (now : Int) (draw : Nat → Fin 3) (s : State)
    (h : s.gameOver = true) : (tickUpdates W H now draw s).gameOver = true := by
  have h1 : (movePlayer W H s).gameOver = true := h
  have h2 : (shoot now (movePlayer W H s)).gameOver = true := by
    rw [shoot_of_gameOver now _ h1]; exact h1
  have h3 := updateBullets_stays_over _ h2
  have h4 := updateEnemies_stays_over W H _ h3
  have h5 := updatePowerUps_stays_over H now draw _ h4
  have h6 := updateCompanions_stays_over now _ h5
  have h7 : (updateExplosions now (updateCompanions now (updatePowerUps H now draw
      (updateEnemies W H (updateBullets (shoot now (movePlayer W H s))))))).gameOver = true := h6
  have h8 : (updatePowerUpStatus now (updateExplosions now (updateCompanions now
      (updatePowerUps H now draw (updateEnemies W H (updateBullets
        (shoot now (movePlayer W H s)))))))).gameOver = true := by
    rw [updatePowerUpStatus_gameOver]; exact h7
  exact checkCollisions_stays_over now _ h8

/-- C6 (counterexample): a call of `gameLoop` on a game-over state in which the left
arrow key is held moves the player from x = 380 to x = 375. -/
theorem C6_gameOver_tick_moves_player :
    gameOverState.gameOver = true ∧ gameOverState.player.x = 380 ∧
      (gameLoop 800 600 0 (fun _ => 0) gameOverState).1.player.x = 375 := by
  refine ⟨rfl, ?_, ?_⟩
  · norm_num [gameOverState, initialState, PLAYER_WIDTH]
  · simp [gameLoop, tickUpdates, movePlayer, shoot, shotTriggered, updateBullets, updateEnemies,
      updatePowerUps, updateCompanions, updateExplosions, updatePowerUpStatus, checkCollisions,
      checkCompanionBulletCollisions, enemyPlayerPass, bulletEnemyPass, forEach, forEachFrom,
      gameOverState, initialState, PLAYER_WIDTH, PLAYER_HEIGHT, PLAYER_SPEED]
    norm_num

theorem gameLoop_fst (W H : ℚ) (now : Int) (draw : Nat → Fin 3) (s : State) :
    (gameLoop W H now draw s).1 = tickUpdates W H now draw s := by
  simp only [gameLoop]

theorem gameLoop_snd (W H : ℚ) (now : Int) (draw : Nat → Fin 3) (s : State) :
    (gameLoop W H now draw s).2 = !(tickUpdates W H now draw s).gameOver := by
  simp only [gameLoop]

/-- C6 (amended): a call of `gameLoop` that ends with `gameOver = true` does not ask
the host for another tick.  A call of `gameLoop` on a state with `gameOver = true`
fires no shot (`shoot` leaves the state as `movePlayer` produced it), ends with
`gameOver` still true and so asks for no further tick; and on such a state each
of the four spawn callbacks leaves the state unchanged. -/
theorem C6_gameOver_tick_halts (W H : ℚ) (now : Int) (draw : Nat → Fin 3) (s : State)
    (h : s.gameOver = true) :
    (∀ t : State, (gameLoop W H now draw t).1.gameOver = true →
        (gameLoop W H now draw t).2 = false) ∧
      shoot now (movePlayer W H s) = movePlayer W H s ∧
      (gameLoop W H now draw s).1.gameOver = true ∧
      (gameLoop W H now draw s).2 = false ∧
      (∀ i a b c, spawnEnemy W i a b c s = s) ∧
      (∀ r, spawnPowerUp W r s = s) ∧
      (∀ r, spawnCompanionPowerUp W r s = s) ∧
      (∀ r, spawnHealthPowerUp W r s = s) := by
  have hover := tickUpdates_stays_over W H now draw s h
  refine ⟨?_, shoot_of_gameOver now _ h, ?_, ?_, ?_, ?_, ?_, ?_⟩
  · intro t ht
    rw [gameLoop_fst] at ht
    rw [gameLoop_snd, ht]; rfl
  · rw [gameLoop_fst]; exact hover
  · rw [gameLoop_snd, hover]; rfl
  · intro i a b c; unfold spawnEnemy; rw [if_pos h]
  · intro r; unfold spawnPowerUp; rw [if_pos h]
  · intro r; unfold spawnCompanionPowerUp; rw [if_pos h]
  · intro r; unfold spawnHealthPowerUp; rw [if_pos h]

/-- C6 (amended) at `gameOverState`. -/
theorem C6_gameOver_tick_halts_witness :
    (∀ t : State, (gameLoop 800 600 0 (fun _ => 0) t).1.gameOver = true →
        (gameLoop 800 600 0 (fun _ => 0) t).2 = false) ∧
      shoot 0 (movePlayer 800 600 gameOverState) = movePlayer 800 600 gameOverState ∧
      (gameLoop 800 600 0 (fun _ => 0) gameOverState).1.gameOver = true ∧
      (gameLoop 800 600 0 (fun _ => 0) gameOverState).2 = false ∧
      (∀ i a b c, spawnEnemy 800 i a b c gameOverState = gameOverState) ∧
      (∀ r, spawnPowerUp 800 r gameOverState = gameOverState) ∧
      (∀ r, spawnCompanionPowerUp 800 r gameOverState = gameOverState) ∧
      (∀ r, spawnHealthPowerUp 800 r gameOverState = gameOverState) :=
  C6_gameOver_tick_halts 800 600 0 (fun _ => 0) gameOverState rfl

/-! ## Claim C7: restart -/

/-- C7 (the code at the failing input): restarting from a game-over state that was
reached in spread mode with a companion alive resets score, health, charges, the
game-over flag and the bullets, enemies, power-ups and explosions, and keeps the
high score, but leaves `bulletMode = 'spread'` and the companion in place:
`restartGame` assigns neither `bulletMode` nor `companions`. -/
theorem C7_restart_keeps_mode_and_companions :
    (restartGame 800 600 restartFromState).score = 0 ∧
      (restartGame 800 600 restartFromState).health = 3 ∧
      (restartGame 800 600 restartFromState).powerUpCount = 0 ∧
      (restartGame 800 600 restartFromState).gameOver = false ∧
      (restartGame 800 600 restartFromState).bullets = [] ∧
      (restartGame 800 600 restartFromState).enemies = [] ∧
      (restartGame 800 600 restartFromState).powerUps = [] ∧
      (restartGame 800 600 restartFromState).explosions = [] ∧
      (restartGame 800 600 restartFromState).highScore = 40 ∧
      (restartGame 800 600 restartFromState).bulletMode = Mode.spread ∧
      (restartGame 800 600 restartFromState).companions = [escort] := by
  simp [restartGame, updateScoreUI, restartFromState, initialState]

/-! ## Claim C8: the manual convert action -/

/-- C8: the keydown handler for `KeyH` records the key as held and runs the convert
branch; that branch gives `powerUpCount - 1` and `health + 1` when
`powerUpCount > 0` and `health < 5` and changes nothing otherwise; no other variable
changes, and a non-negative `powerUpCount` stays non-negative. -/
theorem C8_keydown_KeyH (s : State) :
    keydown "KeyH" s =
        { s with
          keys := fun c => if c = "KeyH" then true else s.keys c
          powerUpCount :=
            if s.powerUpCount > 0 ∧ s.health < 5 then s.powerUpCount - 1 else s.powerUpCount
          health := if s.powerUpCount > 0 ∧ s.health < 5 then s.health + 1 else s.health } ∧
      (0 ≤ s.powerUpCount → 0 ≤ (keydown "KeyH" s).powerUpCount) := by
  have heq : keydown "KeyH" s =
      { s with
        keys := fun c => if c = "KeyH" then true else s.keys c
        powerUpCount :=
          if s.powerUpCount > 0 ∧ s.health < 5 then s.powerUpCount - 1 else s.powerUpCount
        health := if s.powerUpCount > 0 ∧ s.health < 5 then s.health + 1 else s.health } := by
    unfold keydown convertCharge
    simp only [if_true]
    split_ifs <;> rfl
  refine ⟨heq, ?_⟩
  intro h0
  rw [heq]
  show 0 ≤ (if s.powerUpCount > 0 ∧ s.health < 5 then s.powerUpCount - 1 else s.powerUpCount)
  split_ifs with hc
  · omega
  · exact h0

/-- C8 at the example of the specification: (charges 2, health 3) becomes (1, 4), and
at health 5 nothing changes. -/
theorem C8_keydown_KeyH_witness :
    (keydown "KeyH" chargedState).powerUpCount = 1 ∧
      (keydown "KeyH" chargedState).health = 4 ∧
      (keydown "KeyH" { chargedState with health := 5 }).powerUpCount = 2 ∧
      (keydown "KeyH" { chargedState with health := 5 }).health = 5 := by
  rw [(C8_keydown_KeyH chargedState).1, (C8_keydown_KeyH { chargedState with health := 5 }).1]
  simp [chargedState, initialState]

/-! ## Claims C9 and C10: the declarations in effect -/

/-- C9 (the code at the failing input): in spread mode with expiry 1000, at time 2000
the `updatePowerUpStatus` that is in effect (line 554) leaves `bulletMode = 'spread'`;
the shadowed declaration (line 284) is the one that sets it to `'normal'`. -/
theorem C9_mode_not_reverted :
    spreadState.bulletMode = Mode.spread ∧ (2000 : Int) > spreadState.bulletModeEndTime ∧
      (updatePowerUpStatus 2000 spreadState).bulletMode = Mode.spread ∧
      (updatePowerUpStatus_284 2000 spreadState).bulletMode = Mode.normal := by
  simp [updatePowerUpStatus, updatePowerUpStatus_284, spreadState, initialState]

/-- C10 (the code at the failing input): in spread mode with the fire key held and the
cooldown elapsed, the `shoot` that is in effect (line 432) appends one bullet
without `dx` / `dy`; the shadowed declaration (line 294) is the one that appends the
three bullets with `dx` = -2, 0, 2. -/
theorem C10_spread_fires_one_bullet :
    shotTriggered 1000 spreadState ∧
      (shoot 1000 spreadState).bullets = [plainBullet 397 550] ∧
      (shoot_294 1000 spreadState).bullets =
        [{ plainBullet 397 550 with dx := some (-2), dy := some (-7), bounces := some 0 },
         { plainBullet 397 550 with dx := some 0, dy := some (-7), bounces := some 0 },
         { plainBullet 397 550 with dx := some 2, dy := some (-7), bounces := some 0 }] := by
  have htrig : shotTriggered 1000 spreadState := by
    simp [shotTriggered, spreadState, initialState]
  refine ⟨htrig, ?_, ?_⟩
  · unfold shoot
    rw [if_pos htrig]
    simp [updateScoreUI, spreadState, initialState, plainBullet, PLAYER_WIDTH, PLAYER_HEIGHT,
      BULLET_SPEED]
    norm_num
  · unfold shoot_294
    rw [if_pos htrig]
    simp [updateScoreUI, modeBullet, spreadState, initialState, plainBullet, PLAYER_WIDTH,
      PLAYER_HEIGHT, BULLET_SPEED]
    norm_num

/-! ## Claims C12 and C13: kinds of power-ups and their activation -/

/-- C12 (the code at the failing input): the `spawnPowerUp` that is in effect (line 523)
pushes a power-up that carries no effect kind at all; the shadowed declaration
(line 383) and the companion and health spawners push one with exactly one kind. -/
theorem C12_spawned_powerUp_has_no_kind :
    (∃ p, (spawnPowerUp 800 (1 / 2) (initialState 800 600)).powerUps = [p] ∧ kindCount p = 0) ∧
      (∀ i : Fin 4, ∃ p,
        (spawnPowerUp_383 800 i (1 / 2) (initialState 800 600)).powerUps = [p] ∧
          kindCount p = 1) ∧
      (∃ p, (spawnCompanionPowerUp 800 (1 / 2) (initialState 800 600)).powerUps = [p] ∧
        kindCount p = 1) ∧
      (∃ p, (spawnHealthPowerUp 800 (1 / 2) (initialState 800 600)).powerUps = [p] ∧
        kindCount p = 1) := by
  refine ⟨⟨_, rfl, rfl⟩, ?_, ⟨_, rfl, rfl⟩, ⟨_, rfl, rfl⟩⟩
  intro i
  fin_cases i <;> exact ⟨_, rfl, rfl⟩

/-- C13: `activatePowerUp` adds exactly 1 to `powerUpCount` whatever the power-up; for
a health power-up (`isHealth` set, `isCompanion` not set) and `health ≤ 5` it sets
health to `min 5 (health + 1)`; for every other power-up it leaves health
unchanged. -/
theorem C13_activatePowerUp_counters (now : Int) (i : Fin 3) (p : PowerUp) (s : State) :
    (activatePowerUp now i p s).powerUpCount = s.powerUpCount + 1 ∧
      (p.isHealth = true → p.isCompanion = false → s.health ≤ 5 →
        (activatePowerUp now i p s).health = min 5 (s.health + 1)) ∧
      (¬ (p.isHealth = true ∧ p.isCompanion = false) →
        (activatePowerUp now i p s).health = s.health) := by
  refine ⟨?_, ?_, ?_⟩
  · unfold activatePowerUp
    simp only []
    split_ifs <;> rfl
  · intro h1 h2 h3
    unfold activatePowerUp
    simp only [h1, h2, if_true, Bool.false_eq_true, if_false]
    split_ifs with h
    · show s.health + 1 = min 5 (s.health + 1)
      rw [min_eq_right (by omega)]
    · show s.health = min 5 (s.health + 1)
      rw [min_eq_left (by omega)]
      omega
  · intro h
    unfold activatePowerUp
    simp only []
    split_ifs with h1 h2 <;> first | rfl | (exfalso; exact h ⟨h2, by simpa using h1⟩)

/-- C13 at the initial 800 x 600 state (health 3) and at health 5: a health pick-up
gives (charges 1, health 4), and at health 5 it gives charges 1 and health 5. -/
theorem C13_activatePowerUp_counters_witness :
    (activatePowerUp 1000 0 healthPickup (initialState 800 600)).powerUpCount = 1 ∧
      (activatePowerUp 1000 0 healthPickup (initialState 800 600)).health = 4 ∧
      (activatePowerUp 1000 0 healthPickup { initialState 800 600 with health := 5 }).health
        = 5 := by
  have h1 := C13_activatePowerUp_counters 1000 0 healthPickup (initialState 800 600)
  have h2 := C13_activatePowerUp_counters 1000 0 healthPickup
    { initialState 800 600 with health := 5 }
  refine ⟨h1.1, ?_, ?_⟩
  · rw [h1.2.1 rfl rfl (by decide)]; rfl
  · rw [h2.2.1 rfl rfl (by decide)]; rfl

/-! ## Claim C15: the player stays inside the arena -/

theorem movePlayer_x (W H : ℚ) (s : State) :
    (movePlayer W H s).player.x =
      max 0 (min (W - s.player.width) (s.player.x + s.player.speed * heldX s)) := by
  unfold movePlayer heldX
  cases (s.keys "ArrowLeft" || s.keys "KeyA") <;> cases (s.keys "ArrowRight" || s.keys "KeyD") <;>
    cases (s.keys "ArrowUp" || s.keys "KeyW") <;> cases (s.keys "ArrowDown" || s.keys "KeyS") <;>
    simp <;> ring_nf

theorem movePlayer_y (W H : ℚ) (s : State) :
    (movePlayer W H s).player.y =
      max 0 (min (H - s.player.height) (s.player.y + s.player.speed * heldY s)) := by
  unfold movePlayer heldY
  cases (s.keys "ArrowLeft" || s.keys "KeyA") <;> cases (s.keys "ArrowRight" || s.keys "KeyD") <;>
    cases (s.keys "ArrowUp" || s.keys "KeyW") <;> cases (s.keys "ArrowDown" || s.keys "KeyS") <;>
    simp <;> ring_nf

theorem movePlayer_size (W H : ℚ) (s : State) :
    (movePlayer W H s).player.width = s.player.width ∧
      (movePlayer W H s).player.height = s.player.height := by
  unfold movePlayer
  cases (s.keys "ArrowLeft" || s.keys "KeyA") <;> cases (s.keys "ArrowRight" || s.keys "KeyD") <;>
    cases (s.keys "ArrowUp" || s.keys "KeyW") <;> cases (s.keys "ArrowDown" || s.keys "KeyS") <;>
    exact ⟨rfl, rfl⟩

/-- C15: in an arena at least as wide and as high as the player, after `movePlayer`
the player lies inside the arena, `0 ≤ x ≤ W - width` and `0 ≤ y ≤ H - height`
(the size of the player is not changed); and on each axis on which the position
before the clamp is inside, the player has moved by exactly `speed` times
(positive key held minus negative key held). -/
theorem C15_movePlayer_inside (W H : ℚ) (s : State)
    (hW : s.player.width ≤ W) (hH : s.player.height ≤ H) :
    (movePlayer W H s).player.width = s.player.width ∧
      (movePlayer W H s).player.height = s.player.height ∧
      0 ≤ (movePlayer W H s).player.x ∧
      (movePlayer W H s).player.x ≤ W - s.player.width ∧
      0 ≤ (movePlayer W H s).player.y ∧
      (movePlayer W H s).player.y ≤ H - s.player.height ∧
      (0 ≤ s.player.x + s.player.speed * heldX s →
        s.player.x + s.player.speed * heldX s ≤ W - s.player.width →
        (movePlayer W H s).player.x = s.player.x + s.player.speed * heldX s) ∧
      (0 ≤ s.player.y + s.player.speed * heldY s →
        s.player.y + s.player.speed * heldY s ≤ H - s.player.height →
        (movePlayer W H s).player.y = s.player.y + s.player.speed * heldY s) := by
  have hw := (movePlayer_size W H s).1
  have hh := (movePlayer_size W H s).2
  have hx := movePlayer_x W H s
  have hy := movePlayer_y W H s
  have hW0 : 0 ≤ W - s.player.width := by linarith
  have hH0 : 0 ≤ H - s.player.height := by linarith
  refine ⟨hw, hh, ?_, ?_, ?_, ?_, ?_, ?_⟩
  · rw [hx]; exact le_max_left _ _
  · rw [hx]; exact max_le hW0 (min_le_left _ _)
  · rw [hy]; exact le_max_left _ _
  · rw [hy]; exact max_le hH0 (min_le_left _ _)
  · intro h0 h1
    rw [hx, min_eq_right h1, max_eq_right h0]
  · intro h0 h1
    rw [hy, min_eq_right h1, max_eq_right h0]

/-- C15 at `steeringState`: with the right and the up arrow held the player goes from
(380, 550) to (385, 545), inside the 800 x 600 arena. -/
theorem C15_movePlayer_inside_witness :
    (movePlayer 800 600 steeringState).player.x = 385 ∧
      (movePlayer 800 600 steeringState).player.y = 545 ∧
      0 ≤ (movePlayer 800 600 steeringState).player.x ∧
      (movePlayer 800 600 steeringState).player.x ≤ 800 - 40 ∧
      0 ≤ (movePlayer 800 600 steeringState).player.y ∧
      (movePlayer 800 600 steeringState).player.y ≤ 600 - 40 := by
  have hX : heldX steeringState = 1 := by
    simp [heldX, steeringState, initialState]
  have hY : heldY steeringState = -1 := by
    simp [heldY, steeringState, initialState]
  have hx0 : steeringState.player.x = 380 := by
    norm_num [steeringState, initialState, PLAYER_WIDTH]
  have hy0 : steeringState.player.y = 550 := by
    norm_num [steeringState, initialState, PLAYER_HEIGHT]
  have hw0 : steeringState.player.width = 40 := rfl
  have hh0 : steeringState.player.height = 40 := rfl
  have hs0 : steeringState.player.speed = 5 := rfl
  have h := C15_movePlayer_inside 800 600 steeringState
    (by rw [hw0]; norm_num) (by rw [hh0]; norm_num)
  rw [hX, hY, hx0, hy0, hw0, hh0, hs0] at h
  obtain ⟨_, _, h3, h4, h5, h6, h7, h8⟩ := h
  refine ⟨?_, ?_, h3, h4, h5, h6⟩
  · rw [h7 (by norm_num) (by norm_num)]; norm_num
  · rw [h8 (by norm_num) (by norm_num)]; norm_num

/-! ## Claim C16: the gate of `shoot` -/

theorem shotTriggered_iff (now : Int) (s : State) :
    shotTriggered now s ↔
      ((s.keys "Space" = true ∨ s.keys "KeyJ" = true) ∧ s.player.canShoot = true ∧
        s.gameOver = false ∧ now - s.player.lastShotTime > s.player.shootCooldown) := by
  unfold shotTriggered
  simp [and_assoc]

theorem shoot_bullets_length (now : Int) (s : State) (h : shotTriggered now s) :
    (shoot now s).bullets.length = s.bullets.length + 1 := by
  unfold shoot updateScoreUI
  rw [if_pos h]
  split_ifs <;> simp

theorem shoot_294_bullets_length (now : Int) (s : State) (h : shotTriggered now s) :
    s.bullets.length < (shoot_294 now s).bullets.length := by
  unfold shoot_294 updateScoreUI
  rw [if_pos h]
  cases s.bulletMode <;> simp only [] <;> split_ifs <;> simp

/-- C16: for both declarations of `shoot`, the call changes the state if and only if
(Space or KeyJ is held) and `player.canShoot` and not `gameOver` and
`now - player.lastShotTime > player.shootCooldown`; when the condition fails the
state (so bullets, score and `player.lastShotTime`) is unchanged, and when it holds
the call sets `player.lastShotTime = now` and `score = max 0 (score - 2)`. -/
theorem C16_shoot_gate (now : Int) (s : State) :
    (shoot now s ≠ s ↔
        ((s.keys "Space" = true ∨ s.keys "KeyJ" = true) ∧ s.player.canShoot = true ∧
          s.gameOver = false ∧ now - s.player.lastShotTime > s.player.shootCooldown)) ∧
      (shoot_294 now s ≠ s ↔
        ((s.keys "Space" = true ∨ s.keys "KeyJ" = true) ∧ s.player.canShoot = true ∧
          s.gameOver = false ∧ now - s.player.lastShotTime > s.player.shootCooldown)) ∧
      (¬ shotTriggered now s → shoot now s = s ∧ shoot_294 now s = s) ∧
      (shotTriggered now s →
        (shoot now s).player.lastShotTime = now ∧
          (shoot now s).score = max 0 (s.score - 2) ∧
          (shoot_294 now s).player.lastShotTime = now ∧
          (shoot_294 now s).score = max 0 (s.score - 2)) := by
  have hno : ¬ shotTriggered now s → shoot now s = s ∧ shoot_294 now s = s := by
    intro h
    unfold shoot shoot_294
    rw [if_neg h, if_neg h]
    exact ⟨rfl, rfl⟩
  refine ⟨?_, ?_, hno, ?_⟩
  · rw [← shotTriggered_iff]
    constructor
    · intro hne
      by_contra h
      exact hne (hno h).1
    · intro h heq
      have := shoot_bullets_length now s h
      rw [heq] at this
      omega
  · rw [← shotTriggered_iff]
    constructor
    · intro hne
      by_contra h
      exact hne (hno h).2
    · intro h heq
      have := shoot_294_bullets_length now s h
      rw [heq] at this
      omega
  · intro h
    unfold shoot shoot_294 updateScoreUI
    rw [if_pos h, if_pos h]
    simp only []
    refine ⟨?_, ?_, ?_, ?_⟩ <;> split_ifs <;> rfl

/-- C16 at `spreadState` (fire key held, cooldown elapsed at time 1000) and at the
initial state (no key held). -/
theorem C16_shoot_gate_witness :
    shoot 1000 spreadState ≠ spreadState ∧
      (shoot 1000 spreadState).player.lastShotTime = 1000 ∧
      (shoot_294 1000 spreadState).score = max 0 (spreadState.score - 2) ∧
      shoot 1000 (initialState 800 600) = initialState 800 600 := by
  have htrig : shotTriggered 1000 spreadState := by
    simp [shotTriggered, spreadState, initialState]
  have hnot : ¬ shotTriggered 1000 (initialState 800 600) := by
    simp [shotTriggered, initialState]
  have h1 := C16_shoot_gate 1000 spreadState
  have h2 := C16_shoot_gate 1000 (initialState 800 600)
  exact ⟨h1.1.mpr ((shotTriggered_iff _ _).mp htrig), (h1.2.2.2 htrig).1,
    (h1.2.2.2 htrig).2.2.2, (h2.2.2.1 hnot).1⟩

/-! ## Claim C14: expiry of companions -/

/-- C14 (the code at the failing input): with two companions whose lifetimes ended at
9000 and 9200, one call of `updateCompanions` at time 10000 removes the first one
only; the second one moves to index 0, is skipped by the loop and remains in
`companions`, untouched, although its expiry has passed. -/
theorem C14_expired_companion_remains :
    (10000 : Int) > escort.endTime ∧ (10000 : Int) > escortRight.endTime ∧
      (updateCompanions 10000 twoEscortsState).companions = [escortRight] := by
  refine ⟨by decide, by decide, ?_⟩
  simp [updateCompanions, forEach, forEachFrom, companionStep, updateCompanionBullets,
    twoEscortsState, initialState, escort, escortRight]

/-! ## Claim C18: every enemy falls in every call -/

/-- C18 (the code at the failing input): with enemies `[a, b]`, where `a` leaves the
bottom in this call, `updateEnemies` removes `a`, and `b`, which moves to index 0,
is skipped by the loop: it is in `enemies` before and after the call with the same
`y = 30`, not `y = 32`. -/
theorem C18_enemy_after_removed_not_moved :
    skipState.enemies = [plainEnemy 50 149, plainEnemy 100 30] ∧
      (updateEnemies 300 150 skipState).enemies = [plainEnemy 100 30] ∧
      (plainEnemy 100 30).y = 30 ∧ (plainEnemy 100 30).speed = 2 ∧
      (updateEnemies 300 150 skipState).health = 2 := by
  refine ⟨rfl, ?_, rfl, rfl, ?_⟩
  · norm_num [updateEnemies, forEach, forEachFrom, updateEnemiesBody, enemyStep_y, skipState,
      initialState, plainEnemy, triggerGameOver]
  · norm_num [updateEnemies, forEach, forEachFrom, updateEnemiesBody, enemyStep_y, skipState,
      initialState, plainEnemy, triggerGameOver]

/-! ## Claim C17: no enemy stays below the bottom edge -/

theorem forEachFrom_preserves_at {σ α : Type} (arr : σ → List α) (f : α → Nat → σ → σ)
    (P : σ → Prop) (hf : ∀ a k s, (arr s)[k]? = some a → P s → P (f a k s)) :
    ∀ n k s, P s → P (forEachFrom arr f n k s) := by
  intro n
  induction n with
  | zero => intro k s hs; simpa [forEachFrom] using hs
  | succ n ih =>
    intro k s hs
    rw [forEachFrom]
    apply ih
    cases h : (arr s)[k]? with
    | none => exact hs
    | some a => exact hf a k s h hs

theorem mem_of_mem_eraseIdx_set {α : Type} (l : List α) (k : Nat) (a x : α)
    (h : x ∈ (l.set k a).eraseIdx k) : x ∈ l := by
  rw [List.mem_eraseIdx_iff_getElem?] at h
  obtain ⟨i, hik, hi⟩ := h
  rw [List.getElem?_set_ne (Ne.symm hik)] at hi
  exact List.getElem?_mem hi

theorem updateEnemiesBody_keeps_edge (W H : ℚ) (c : Int) (n0 : Nat) (e : Enemy) (k : Nat)
    (s : State) (hk : s.enemies[k]? = some e)
    (h : (∀ x ∈ s.enemies, x.y ≤ H) ∧ s.health - s.enemies.length = c ∧
      s.enemies.length ≤ n0) :
    (∀ x ∈ (updateEnemiesBody W H e k s).enemies, x.y ≤ H) ∧
      (updateEnemiesBody W H e k s).health - (updateEnemiesBody W H e k s).enemies.length = c ∧
      (updateEnemiesBody W H e k s).enemies.length ≤ n0 := by
  obtain ⟨h1, h2, h3⟩ := h
  have hlt : k < s.enemies.length := by
    obtain ⟨hlt, _⟩ := List.getElem?_eq_some.mp hk
    exact hlt
  by_cases hexit : e.y + e.speed > H
  · have hlen : ((s.enemies.set k (enemyStep W e)).eraseIdx k).length + 1 = s.enemies.length := by
      rw [List.length_eraseIdx_of_lt (by simpa using hlt), List.length_set]
      omega
    rw [updateEnemiesBody_exit W H e k s hexit]
    split_ifs
    · refine ⟨fun x hx => h1 x (mem_of_mem_eraseIdx_set _ _ _ _ hx), ?_, ?_⟩
      · show s.health - 1 - (((s.enemies.set k (enemyStep W e)).eraseIdx k).length : Int) = c
        omega
      · show ((s.enemies.set k (enemyStep W e)).eraseIdx k).length ≤ n0
        omega
    · refine ⟨fun x hx => h1 x (mem_of_mem_eraseIdx_set _ _ _ _ hx), ?_, ?_⟩
      · show s.health - 1 - (((s.enemies.set k (enemyStep W e)).eraseIdx k).length : Int) = c
        omega
      · show ((s.enemies.set k (enemyStep W e)).eraseIdx k).length ≤ n0
        omega
  · rw [updateEnemiesBody_stay W H e k s (not_lt.mp hexit)]
    refine ⟨?_, ?_, ?_⟩
    · intro x hx
      rcases List.mem_or_eq_of_mem_set hx with hx | hx
      · exact h1 x hx
      · rw [hx, enemyStep_y]; exact not_lt.mp hexit
    · show s.health - ((s.enemies.set k (enemyStep W e)).length : Int) = c
      rw [List.length_set]; exact h2
    · show (s.enemies.set k (enemyStep W e)).length ≤ n0
      rw [List.length_set]; exact h3

/-- C17: when no enemy starts below the bottom edge, after one call of `updateEnemies`
no enemy left in `enemies` is below it, no enemy has been added, and health has
gone down by exactly the number of enemies the call removed. -/
theorem C17_updateEnemies_edge_invariant (W H : ℚ) (s : State)
    (h : ∀ e ∈ s.enemies, e.y ≤ H) :
    (∀ e ∈ (updateEnemies W H s).enemies, e.y ≤ H) ∧
      (updateEnemies W H s).enemies.length ≤ s.enemies.length ∧
      (updateEnemies W H s).health =
        s.health - ((s.enemies.length : Int) - ((updateEnemies W H s).enemies.length : Int)) := by
  have key : (∀ x ∈ (updateEnemies W H s).enemies, x.y ≤ H) ∧
      (updateEnemies W H s).health - ((updateEnemies W H s).enemies.length : Int) =
        s.health - (s.enemies.length : Int) ∧
      (updateEnemies W H s).enemies.length ≤ s.enemies.length :=
    forEachFrom_preserves_at (fun t : State => t.enemies) (updateEnemiesBody W H)
      (fun t => (∀ x ∈ t.enemies, x.y ≤ H) ∧
        t.health - t.enemies.length = s.health - s.enemies.length ∧
        t.enemies.length ≤ s.enemies.length)
      (fun e k t hk ht => updateEnemiesBody_keeps_edge W H _ _ e k t hk ht)
      s.enemies.length 0 s ⟨h, rfl, le_refl _⟩
  obtain ⟨k1, k2, k3⟩ := key
  refine ⟨k1, k3, ?_⟩
  omega

/-- C17 at `nearEdgeState` (enemies at y = 149, 30 and 150 on a canvas of height 150). -/
theorem C17_updateEnemies_edge_invariant_witness :
    (∀ e ∈ nearEdgeState.enemies, e.y ≤ 150) ∧
      (∀ e ∈ (updateEnemies 300 150 nearEdgeState).enemies, e.y ≤ 150) ∧
      (updateEnemies 300 150 nearEdgeState).enemies.length ≤ nearEdgeState.enemies.length ∧
      (updateEnemies 300 150 nearEdgeState).health =
        nearEdgeState.health - ((nearEdgeState.enemies.length : Int) -
          ((updateEnemies 300 150 nearEdgeState).enemies.length : Int)) := by
  have h0 : ∀ e ∈ nearEdgeState.enemies, e.y ≤ 150 := by
    intro e he
    simp only [nearEdgeState, List.mem_cons, List.mem_singleton, List.not_mem_nil, or_false] at he
    rcases he with rfl | rfl | rfl <;> norm_num [plainEnemy]
  exact ⟨h0, C17_updateEnemies_edge_invariant 300 150 nearEdgeState h0⟩

/-! ## Claim C19: the two removals of `updatePowerUps` exclude each other -/

theorem forEachFrom_congr {σ α : Type} (arr : σ → List α) (f g : α → Nat → σ → σ)
    (P : σ → Prop) (hfg : ∀ a k s, P s → f a k s = g a k s)
    (hP : ∀ a k s, P s → P (f a k s)) :
    ∀ n k s, P s → forEachFrom arr f n k s = forEachFrom arr g n k s := by
  intro n
  induction n with
  | zero => intro k s _; simp [forEachFrom]
  | succ n ih =>
    intro k s hs
    rw [forEachFrom, forEachFrom]
    cases h : (arr s)[k]? with
    | none => exact ih _ _ hs
    | some a =>
      simp only []
      rw [← hfg a k s hs]
      exact ih _ _ (hP a k s hs)

theorem eraseIdx_set_self {α : Type} (l : List α) (k : Nat) (a : α) :
    (l.set k a).eraseIdx k = l.eraseIdx k := by
  induction l generalizing k with
  | nil => simp
  | cons x l ih =>
    cases k with
    | zero => simp
    | succ k => simp [ih]

theorem not_below_and_hit (H : ℚ) (pl : Player) (h : pl.y + pl.height ≤ H) (p : PowerUp) :
    ¬ (p.y > H ∧ powerUpHitsPlayer p pl) := by
  rintro ⟨h1, _, _, h3, _⟩
  linarith

theorem activatePowerUp_player (now : Int) (i : Fin 3) (p : PowerUp) (s : State) :
    (activatePowerUp now i p s).player = s.player := by
  unfold activatePowerUp
  simp only []
  split_ifs <;> rfl

theorem updatePowerUpsBody_player (H : ℚ) (now : Int) (draw : Nat → Fin 3) (p : PowerUp)
    (k : Nat) (t : State) : (updatePowerUpsBody H now draw p k t).player = t.player := by
  unfold updatePowerUpsBody
  simp only []
  split_ifs <;> first | rfl | (rw [activatePowerUp_player])

theorem updatePowerUpsBody_eq_once (H : ℚ) (now : Int) (draw : Nat → Fin 3) (powerUp : PowerUp)
    (k : Nat) (t : State) (h : t.player.y + t.player.height ≤ H) :
    updatePowerUpsBody H now draw powerUp k t = updatePowerUpsOnce H now draw powerUp k t := by
  have hex := not_below_and_hit H t.player h { powerUp with y := powerUp.y + powerUp.speed }
  unfold updatePowerUpsBody updatePowerUpsOnce
  simp only []
  by_cases hb : powerUp.y + powerUp.speed > H
  · have hnot : ¬ powerUpHitsPlayer { powerUp with y := powerUp.y + powerUp.speed } t.player :=
      fun hh => hex ⟨hb, hh⟩
    rw [if_pos hb, if_pos hb, if_neg hnot, eraseIdx_set_self]
  · rw [if_neg hb, if_neg hb]
    by_cases hh : powerUpHitsPlayer { powerUp with y := powerUp.y + powerUp.speed } t.player
    · rw [if_pos hh, if_pos hh]
      simp only [eraseIdx_set_self]
    · rw [if_neg hh, if_neg hh]

/-- C19: when the player lies inside the arena (`player.y + player.height ≤ H`), no
power-up is both below the bottom (`y > H`) and overlapping the player; so each
callback of `updatePowerUps`, and the whole call, is the same as with the two
removals excluding each other: the visited power-up is spliced at most once, at its
own index, and `activatePowerUp` runs only for a power-up that overlaps the
player. -/
theorem C19_updatePowerUps_single_splice (H : ℚ) (now : Int) (draw : Nat → Fin 3) (s : State)
    (h : s.player.y + s.player.height ≤ H) :
    (∀ p : PowerUp, ¬ (p.y > H ∧ powerUpHitsPlayer p s.player)) ∧
      (∀ (powerUp : PowerUp) (k : Nat),
        updatePowerUpsBody H now draw powerUp k s = updatePowerUpsOnce H now draw powerUp k s) ∧
      updatePowerUps H now draw s =
        forEach (fun t : State => t.powerUps) (updatePowerUpsOnce H now draw) s := by
  refine ⟨not_below_and_hit H s.player h, fun p k => updatePowerUpsBody_eq_once H now draw p k s h,
    ?_⟩
  unfold updatePowerUps forEach
  apply forEachFrom_congr _ _ _ (fun t : State => t.player = s.player) _ _ _ _ s rfl
  · intro p k t ht
    exact updatePowerUpsBody_eq_once H now draw p k t (by rw [ht]; exact h)
  · intro p k t ht
    rw [updatePowerUpsBody_player]; exact ht

/-- C19 at `pickupState` (player at (380, 550) on an 800 x 600 canvas, one power-up
reaching the player and one below the bottom edge). -/
theorem C19_updatePowerUps_single_splice_witness :
    pickupState.player.y + pickupState.player.height ≤ 600 ∧
      (∀ p : PowerUp, ¬ (p.y > 600 ∧ powerUpHitsPlayer p pickupState.player)) ∧
      (∀ (powerUp : PowerUp) (k : Nat),
        updatePowerUpsBody 600 1000 (fun _ => 0) powerUp k pickupState =
          updatePowerUpsOnce 600 1000 (fun _ => 0) powerUp k pickupState) ∧
      updatePowerUps 600 1000 (fun _ => 0) pickupState =
        forEach (fun t : State => t.powerUps) (updatePowerUpsOnce 600 1000 (fun _ => 0))
          pickupState := by
  have hin : pickupState.player.y + pickupState.player.height ≤ 600 := by
    norm_num [pickupState, initialState, PLAYER_HEIGHT]
  exact ⟨hin, C19_updatePowerUps_single_splice 600 1000 (fun _ => 0) pickupState hin⟩

/-! ## Claim C11: the bounce budget -/

theorem flightStep_free (W H : ℚ) (mode : Mode) (b : Bullet) (c : Nat) (d e : ℚ)
    (hdx : b.dx = some d) (hdy : b.dy = some e) (hd : d ≠ 0) (he : e ≠ 0)
    (hh : 0 ≤ b.height)
    (hx1 : 0 < b.x + d) (hx2 : b.x + d + b.width < W) (hy1 : 0 < b.y + e) (hy2 : b.y + e ≤ H) :
    flightStep W H mode (some (b, c)) = some ({ b with x := b.x + d, y := b.y + e }, c) := by
  have hside : ¬ (b.x + d ≤ 0 ∨ b.x + d + b.width ≥ W) := by
    rintro (h | h) <;> linarith
  have htop : ¬ (b.y + e ≤ 0) := by linarith
  have hstep : bulletStep_362 W mode b = { b with x := b.x + d, y := b.y + e } := by
    unfold bulletStep_362
    simp only [hdx, hdy, orElse, if_neg hd, if_neg he, hside, htop, if_false, ite_self]
  have hrefl : reflections_362 W mode b = 0 := by
    unfold reflections_362
    simp only [hdx, hdy, orElse, if_neg hd, if_neg he, hside, htop, if_false, ite_self,
      Nat.add_zero]
  unfold flightStep
  simp only [hstep, hrefl]
  rw [if_neg]
  · rfl
  · rintro (h | h) <;> linarith

theorem flight_free (W H : ℚ) (mode : Mode) (d e : ℚ) (hd : d ≠ 0) (he : e ≠ 0) :
    ∀ (k : Nat) (b : Bullet) (c : Nat), b.dx = some d → b.dy = some e → 0 ≤ b.height →
      (∀ j : Nat, 1 ≤ j → j ≤ k →
        0 < b.x + j * d ∧ b.x + j * d + b.width < W ∧ 0 < b.y + j * e ∧ b.y + j * e ≤ H) →
      (flightStep W H mode)^[k] (some (b, c)) =
        some ({ b with x := b.x + k * d, y := b.y + k * e }, c) := by
  intro k
  induction k with
  | zero =>
    intro b c _ _ _ _
    simp
  | succ k ih =>
    intro b c hdx hdy hh hall
    have h1 := hall 1 (le_refl _) (by omega)
    simp only [Nat.cast_one, one_mul] at h1
    rw [Function.iterate_succ_apply,
      flightStep_free W H mode b c d e hdx hdy hd he hh h1.1 h1.2.1 h1.2.2.1 h1.2.2.2,
      ih { b with x := b.x + d, y := b.y + e } c hdx hdy hh]
    · simp only [Nat.cast_add, Nat.cast_one, Prod.mk.injEq, Option.some.injEq, and_true]
      congr 1 <;> ring
    · intro j hj1 hjk
      have := hall (j + 1) (by omega) (by omega)
      simp only [Nat.cast_add, Nat.cast_one] at this
      refine ⟨?_, ?_, ?_, ?_⟩
      · show 0 < b.x + d + j * d
        linarith [this.1]
      · show b.x + d + j * d + b.width < W
        linarith [this.2.1]
      · show 0 < b.y + e + j * e
        linarith [this.2.2.1]
      · show b.y + e + j * e ≤ H
        linarith [this.2.2.2]

theorem updateBullets_362_flight (W H : ℚ) (s : State) (o : Option (Bullet × Nat))
    (hb : s.bullets = flightBullets o) :
    updateBullets_362 W H s =
      { s with bullets := flightBullets (flightStep W H s.bulletMode o) } := by
  unfold updateBullets_362 forEach
  rcases o with _ | ⟨b, c⟩
  · simp only [flightBullets] at hb
    simp only [hb, List.length_nil, forEachFrom, flightStep, flightBullets]
    rw [← hb]
  · simp only [flightBullets] at hb
    simp only [hb, List.length_singleton, forEachFrom, List.getElem?_cons_zero, flightStep,
      updateBulletsBody_362]
    split_ifs <;> simp [flightBullets]

theorem updateBullets_362_bulletMode (W H : ℚ) (s : State) (o : Option (Bullet × Nat))
    (hb : s.bullets = flightBullets o) :
    (updateBullets_362 W H s).bulletMode = s.bulletMode := by
  rw [updateBullets_362_flight W H s o hb]

theorem updateBullets_362_iterate_flight (W H : ℚ) :
    ∀ (n : Nat) (s : State) (o : Option (Bullet × Nat)), s.bullets = flightBullets o →
      (updateBullets_362 W H)^[n] s =
        { s with bullets := flightBullets ((flightStep W H s.bulletMode)^[n] o) } := by
  intro n
  induction n with
  | zero =>
    intro s o hb
    simp only [Function.iterate_zero, id_eq]
    rw [← hb]
  | succ n ih =>
    intro s o hb
    rw [Function.iterate_succ_apply, Function.iterate_succ_apply,
      updateBullets_362_flight W H s o hb, ih _ (flightStep W H s.bulletMode o) rfl]

theorem bounce_flight_49 :
    (flightStep 46 400 Mode.bounce)^[49] (some (flyer 20 350 2 (-7) 3, 0)) =
      some (flyer 38 7 2 (-7) 1, 2) := by
  have seg1 : (flightStep 46 400 Mode.bounce)^[9] (some (flyer 20 350 2 (-7) 3, 0)) =
      some (flyer 38 287 2 (-7) 3, 0) := by
    rw [flight_free 46 400 Mode.bounce 2 (-7) (by norm_num) (by norm_num) 9 _ 0 rfl rfl
      (by norm_num [flyer])]
    · norm_num [flyer]
    · intro j h1 h2
      have h1' : (1 : ℚ) ≤ j := by exact_mod_cast h1
      have h2' : (j : ℚ) ≤ 9 := by exact_mod_cast h2
      simp only [flyer]
      refine ⟨?_, ?_, ?_, ?_⟩ <;> linarith
  have hit1 : flightStep 46 400 Mode.bounce (some (flyer 38 287 2 (-7) 3, 0)) =
      some (flyer 40 280 (-2) (-7) 2, 1) := by
    simp [flightStep, bulletStep_362, reflections_362, orElse, bouncesLeft, flyer]
    norm_num
  have seg2 : (flightStep 46 400 Mode.bounce)^[19] (some (flyer 40 280 (-2) (-7) 2, 1)) =
      some (flyer 2 147 (-2) (-7) 2, 1) := by
    rw [flight_free 46 400 Mode.bounce (-2) (-7) (by norm_num) (by norm_num) 19 _ 1 rfl rfl
      (by norm_num [flyer])]
    · norm_num [flyer]
    · intro j h1 h2
      have h1' : (1 : ℚ) ≤ j := by exact_mod_cast h1
      have h2' : (j : ℚ) ≤ 19 := by exact_mod_cast h2
      simp only [flyer]
      refine ⟨?_, ?_, ?_, ?_⟩ <;> linarith
  have hit2 : flightStep 46 400 Mode.bounce (some (flyer 2 147 (-2) (-7) 2, 1)) =
      some (flyer 0 140 2 (-7) 1, 2) := by
    simp [flightStep, bulletStep_362, reflections_362, orElse, bouncesLeft, flyer]
    norm_num
  have seg3 : (flightStep 46 400 Mode.bounce)^[19] (some (flyer 0 140 2 (-7) 1, 2)) =
      some (flyer 38 7 2 (-7) 1, 2) := by
    rw [flight_free 46 400 Mode.bounce 2 (-7) (by norm_num) (by norm_num) 19 _ 2 rfl rfl
      (by norm_num [flyer])]
    · norm_num [flyer]
    · intro j h1 h2
      have h1' : (1 : ℚ) ≤ j := by exact_mod_cast h1
      have h2' : (j : ℚ) ≤ 19 := by exact_mod_cast h2
      simp only [flyer]
      refine ⟨?_, ?_, ?_, ?_⟩ <;> linarith
  have e49 : (49 : Nat) = 19 + (1 + (19 + (1 + 9))) := by norm_num
  rw [e49, Function.iterate_add_apply, Function.iterate_add_apply, Function.iterate_add_apply,
    Function.iterate_add_apply, seg1, Function.iterate_one, hit1, seg2, hit2, seg3]

theorem bounce_flight_50 :
    (flightStep 46 400 Mode.bounce)^[50] (some (flyer 20 350 2 (-7) 3, 0)) =
      some (flyer 40 0 (-2) 7 (-1), 4) := by
  have e50 : (50 : Nat) = 1 + 49 := by norm_num
  rw [e50, Function.iterate_add_apply, bounce_flight_49, Function.iterate_one]
  simp [flightStep, bulletStep_362, reflections_362, orElse, bouncesLeft, flyer]
  norm_num

/-- C11 (the code at the failing input): on a 46 x 400 canvas the bullet that the earlier
`shoot` fires in bounce mode (budget 3, at (20, 350), velocity (2, -7)) is reflected
at the right wall (call 10) and at the left wall (call 30); after 49 calls of the
earlier `updateBullets` it is at (38, 7) with one bounce left.  The 50th call puts it
at (40, 0), touching the right wall and the top at once: both `dx` and `dy` are
negated and `bounces` becomes -1.  That is 4 negations for a budget of 3. -/
theorem C11_corner_overdraws_budget :
    (shoot_294 1000 bounceState).bullets = [flyer 20 350 2 (-7) 3] ∧
      ((updateBullets_362 46 400)^[49] (shoot_294 1000 bounceState)).bullets =
        [flyer 38 7 2 (-7) 1] ∧
      ((updateBullets_362 46 400)^[50] (shoot_294 1000 bounceState)).bullets =
        [flyer 40 0 (-2) 7 (-1)] ∧
      (flightStep 46 400 Mode.bounce)^[50] (some (flyer 20 350 2 (-7) 3, 0)) =
        some (flyer 40 0 (-2) 7 (-1), 4) := by
  have htrig : shotTriggered 1000 bounceState := by
    simp [shotTriggered, bounceState, initialState]
  have hb : (shoot_294 1000 bounceState).bullets = [flyer 20 350 2 (-7) 3] := by
    unfold shoot_294
    rw [if_pos htrig]
    simp [updateScoreUI, bounceState, initialState, modeBullet, flyer, PLAYER_WIDTH,
      PLAYER_HEIGHT, BULLET_SPEED]
    norm_num
  have hm : (shoot_294 1000 bounceState).bulletMode = Mode.bounce := by
    unfold shoot_294
    rw [if_pos htrig]
    simp [updateScoreUI, bounceState, initialState]
  have hf : (shoot_294 1000 bounceState).bullets =
      flightBullets (some (flyer 20 350 2 (-7) 3, 0)) := hb
  refine ⟨hb, ?_, ?_, bounce_flight_50⟩
  · rw [updateBullets_362_iterate_flight 46 400 49 _ _ hf]
    show flightBullets ((flightStep 46 400 (shoot_294 1000 bounceState).bulletMode)^[49] _) = _
    rw [hm, bounce_flight_49]
    rfl
  · rw [updateBullets_362_iterate_flight 46 400 50 _ _ hf]
    show flightBullets ((flightStep 46 400 (shoot_294 1000 bounceState).bulletMode)^[50] _) = _
    rw [hm, bounce_flight_50]
    rfl

/-! ## Claim C20: the two firing pairs in normal mode -/

theorem forEachFrom_rel {σ τ α β : Type} (arr1 : σ → List α) (arr2 : τ → List β)
    (f : α → Nat → σ → σ) (g : β → Nat → τ → τ) (R : σ → τ → Prop)
    (hlen : ∀ s t, R s t → (arr1 s).length = (arr2 t).length)
    (hstep : ∀ k s t a b, R s t → (arr1 s)[k]? = some a → (arr2 t)[k]? = some b →
      R (f a k s) (g b k t)) :
    ∀ n k s t, R s t → R (forEachFrom arr1 f n k s) (forEachFrom arr2 g n k t) := by
  intro n
  induction n with
  | zero => intro k s t h; simpa [forEachFrom] using h
  | succ n ih =>
    intro k s t h
    rw [forEachFrom, forEachFrom]
    apply ih
    cases h1 : (arr1 s)[k]? with
    | none =>
      have h2 : (arr2 t)[k]? = none := by
        rw [List.getElem?_eq_none_iff] at h1 ⊢
        rw [← hlen s t h]; exact h1
      rw [h2]
      exact h
    | some a =>
      have hk : k < (arr2 t).length := by
        rw [← hlen s t h]
        exact (List.getElem?_eq_some.mp h1).1
      have h2 : (arr2 t)[k]? = some ((arr2 t)[k]) := List.getElem?_eq_getElem hk
      rw [h2]
      exact hstep k s t a _ h h1 h2

theorem map_eraseIdx_comm {α β : Type} (f : α → β) (l : List α) (k : Nat) :
    (l.eraseIdx k).map f = (l.map f).eraseIdx k := by
  induction l generalizing k with
  | nil => simp
  | cons x l ih =>
    cases k with
    | zero => simp
    | succ k => simp [ih]

theorem bulletStep_362_normal (W : ℚ) (b : Bullet) :
    bulletStep_362 W Mode.normal b =
      { b with x := b.x + orElse b.dx 0, y := b.y + orElse b.dy (-b.speed) } := by
  unfold bulletStep_362
  simp

theorem updateScoreUI_inStep (H : ℚ) (s1 s2 : State) (h : InStep H s1 s2) :
    InStep H (updateScoreUI s1) (updateScoreUI s2) := by
  unfold updateScoreUI
  split_ifs <;> exact h

theorem shoot_inStep (H : ℚ) (now : Int) (s1 s2 : State) (h : InStep H s1 s2) :
    InStep H (shoot_294 now s1) (shoot now s2) := by
  obtain ⟨hk, hp, hg, hsc, hm, hb, hst, hy⟩ := h
  have htrig : shotTriggered now s1 ↔ shotTriggered now s2 := by
    unfold shotTriggered
    rw [hk, hp, hg]
  unfold shoot_294 shoot
  by_cases ht : shotTriggered now s1
  · rw [if_pos ht, if_pos (htrig.mp ht)]
    apply updateScoreUI_inStep
    refine ⟨hk, ?_, hg, ?_, hm, ?_, ?_, hy⟩
    · show ({ s1.player with lastShotTime := now } : Player) = { s2.player with lastShotTime := now }
      rw [hp]
    · show max 0 (s1.score - 2) = max 0 (s2.score - 2)
      rw [hsc]
    · show (s1.bullets ++ _).map Bullet.core = (s2.bullets ++ _).map Bullet.core
      rw [hm, List.map_append, List.map_append, hb, hp]
      simp [Bullet.core, modeBullet]
    · intro b hbm
      have hbm' : b ∈ s1.bullets ++ [modeBullet s1.player 0 0] := by
        simpa [hm] using hbm
      rcases List.mem_append.mp hbm' with hbm' | hbm'
      · exact hst b hbm'
      · rw [List.mem_singleton] at hbm'
        rw [hbm']
        refine ⟨?_, ?_, ?_, hy⟩
        · simp [modeBullet, orElse]
        · simp [modeBullet, orElse, BULLET_SPEED]
        · norm_num [modeBullet, BULLET_SPEED]
  · rw [if_neg ht, if_neg (fun h2 => ht (htrig.mpr h2))]
    exact ⟨hk, hp, hg, hsc, hm, hb, hst, hy⟩

theorem updateBullets_step_inStep (W H : ℚ) (k : Nat) (s1 s2 : State) (b1 b2 : Bullet)
    (h : InStep H s1 s2) (h1 : s1.bullets[k]? = some b1) (h2 : s2.bullets[k]? = some b2) :
    InStep H (updateBulletsBody_362 W H b1 k s1) (updateBulletsBody b2 k s2) := by
  obtain ⟨hk, hp, hg, hsc, hm, hb, hst, hy⟩ := h
  have hget : Option.map Bullet.core s1.bullets[k]? = Option.map Bullet.core s2.bullets[k]? := by
    rw [← List.getElem?_map, ← List.getElem?_map, hb]
  rw [h1, h2] at hget
  simp only [Option.map_some', Option.some.injEq, Bullet.core, Prod.mk.injEq] at hget
  obtain ⟨ex, ey, ew, eh, es⟩ := hget
  obtain ⟨sx, sy, ssp, sH⟩ := hst b1 (List.getElem?_mem h1)
  have hstep : bulletStep_362 W s1.bulletMode b1 =
      { b1 with x := b1.x + 0, y := b1.y + -b1.speed } := by
    rw [hm, bulletStep_362_normal, sx, sy]
  have hcore : Bullet.core { b1 with x := b1.x + 0, y := b1.y + -b1.speed } =
      Bullet.core { b2 with y := b2.y - b2.speed } := by
    simp only [Bullet.core, Prod.mk.injEq]
    refine ⟨by rw [ex]; ring, by rw [ey, es]; ring, ew, eh, es⟩
  have hstraight : StraightUp H { b1 with x := b1.x + 0, y := b1.y + -b1.speed } := by
    refine ⟨sx, sy, ssp, ?_⟩
    show b1.y + -b1.speed ≤ H
    linarith
  have hcond : ((b1.y + -b1.speed + b1.height < 0 ∨ b1.y + -b1.speed > H) ↔
      b2.y - b2.speed + b2.height < 0) := by
    rw [ey, es, eh]
    constructor
    · rintro (hc | hc)
      · linarith
      · exfalso; rw [← ey, ← es] at hc; linarith
    · intro hc
      left; linarith
  simp only [updateBulletsBody_362, updateBulletsBody, hstep]
  by_cases hc : b2.y - b2.speed + b2.height < 0
  · rw [if_pos (hcond.mpr hc), if_pos hc]
    refine ⟨hk, hp, hg, hsc, hm, ?_, ?_, hy⟩
    · show ((s1.bullets.set k _).eraseIdx k).map Bullet.core =
        ((s2.bullets.set k _).eraseIdx k).map Bullet.core
      rw [map_eraseIdx_comm, map_eraseIdx_comm, List.map_set, List.map_set, hb, hcore]
    · intro b hbm
      have hbm' : b ∈ s1.bullets.set k { b1 with x := b1.x + 0, y := b1.y + -b1.speed } :=
        List.mem_of_mem_eraseIdx hbm
      rcases List.mem_or_eq_of_mem_set hbm' with hbm' | hbm'
      · exact hst b hbm'
      · rw [hbm']; exact hstraight
  · rw [if_neg (fun hh => hc (hcond.mp hh)), if_neg hc]
    refine ⟨hk, hp, hg, hsc, hm, ?_, ?_, hy⟩
    · show (s1.bullets.set k _).map Bullet.core = (s2.bullets.set k _).map Bullet.core
      rw [List.map_set, List.map_set, hb, hcore]
    · intro b hbm
      rcases List.mem_or_eq_of_mem_set hbm with hbm' | hbm'
      · exact hst b hbm'
      · rw [hbm']; exact hstraight

theorem updateBullets_inStep (W H : ℚ) (s1 s2 : State) (h : InStep H s1 s2) :
    InStep H (updateBullets_362 W H s1) (updateBullets s2) := by
  have hlen : s1.bullets.length = s2.bullets.length := by
    have := congrArg List.length h.2.2.2.2.2.1
    simpa using this
  unfold updateBullets_362 updateBullets forEach
  rw [hlen]
  exact forEachFrom_rel _ _ _ _ (InStep H)
    (fun t1 t2 ht => by
      have := congrArg List.length ht.2.2.2.2.2.1
      simpa using this)
    (fun k t1 t2 a b ht h1 h2 => updateBullets_step_inStep W H k t1 t2 a b ht h1 h2) _ _ s1 s2 h

theorem run_inStep (W H : ℚ) (calls : List FireCall) :
    ∀ s1 s2, InStep H s1 s2 → InStep H (runEarlier W H calls s1) (runLater calls s2) := by
  induction calls with
  | nil => intro s1 s2 h; exact h
  | cons c rest ih =>
    intro s1 s2 h
    apply ih
    cases c with
    | shoot now => exact shoot_inStep H now s1 s2 h
    | updateBullets => exact updateBullets_inStep W H s1 s2 h

theorem sameShots_of_inStep (H : ℚ) (s1 s2 : State) (h : InStep H s1 s2) : SameShots s1 s2 := by
  obtain ⟨_, hp, _, hsc, _, hb, _, _⟩ := h
  refine ⟨hsc, by rw [hp], ?_⟩
  have := congrArg (List.map (fun c : ℚ × ℚ × ℚ × ℚ × ℚ => (c.1, c.2.1, c.2.2.1, c.2.2.2.1))) hb
  simpa [List.map_map, Function.comp, Bullet.core, Bullet.box] using this

/-- C20 (counterexample): in normal mode, starting from a state that still holds a
bullet with `dx = -2` (fired by the earlier `shoot` during the spread mode), one
call of `updateBullets` moves the bullet to x = 395 under the earlier declaration
and leaves it at x = 397 under the later one. -/
theorem C20_leftover_spread_bullet_differs :
    leftoverSpreadState.bulletMode = Mode.normal ∧
      0 ≤ leftoverSpreadState.player.y ∧
      leftoverSpreadState.player.y + leftoverSpreadState.player.height ≤ 600 ∧
      (runEarlier 800 600 [FireCall.updateBullets] leftoverSpreadState).bullets.map Bullet.box =
        [(395, 493, 6, 12)] ∧
      (runLater [FireCall.updateBullets] leftoverSpreadState).bullets.map Bullet.box =
        [(397, 493, 6, 12)] ∧
      ¬ SameShots (runEarlier 800 600 [FireCall.updateBullets] leftoverSpreadState)
        (runLater [FireCall.updateBullets] leftoverSpreadState) := by
  have h1 : (runEarlier 800 600 [FireCall.updateBullets] leftoverSpreadState).bullets.map
      Bullet.box = [(395, 493, 6, 12)] := by
    simp [runEarlier, applyEarlier, updateBullets_362, updateBulletsBody_362, forEach, forEachFrom,
      bulletStep_362, orElse, leftoverSpreadState, initialState, flyer]
    norm_num
    rfl
  have h2 : (runLater [FireCall.updateBullets] leftoverSpreadState).bullets.map Bullet.box =
      [(397, 493, 6, 12)] := by
    simp [runLater, applyLater, updateBullets, updateBulletsBody, forEach, forEachFrom,
      leftoverSpreadState, initialState, flyer]
    norm_num
    rfl
  refine ⟨rfl, ?_, ?_, h1, h2, ?_⟩
  · norm_num [leftoverSpreadState, initialState, PLAYER_HEIGHT]
  · norm_num [leftoverSpreadState, initialState, PLAYER_HEIGHT]
  · rintro ⟨_, _, h3⟩
    rw [h1, h2] at h3
    norm_num at h3

/-- C20 (amended): in normal mode, starting from the same state in which the player is
not below the bottom edge (`player.y ≤ H`, as inside the arena) and every bullet
already in the list is one that both declarations move straight up (`StraightUp`),
the earlier pair (lines 294, 362) and the later pair (lines 432, 451) carry out the
same sequence of `shoot` and `updateBullets` calls to states with the same score,
the same `lastShotTime` and bullets lists with the same box at every index. -/
theorem C20_pairs_agree_in_normal_mode (W H : ℚ) (calls : List FireCall) (s : State)
    (hmode : s.bulletMode = Mode.normal) (hplayer : s.player.y ≤ H)
    (hbullets : ∀ b ∈ s.bullets, StraightUp H b) :
    SameShots (runEarlier W H calls s) (runLater calls s) :=
  sameShots_of_inStep H _ _
    (run_inStep W H calls s s ⟨rfl, rfl, rfl, rfl, hmode, rfl, hbullets, hplayer⟩)

/-- C20 (amended) at `fireState`: two shots (times 1000 and 1400) with calls of
`updateBullets` in between and after. -/
theorem C20_pairs_agree_in_normal_mode_witness :
    SameShots
      (runEarlier 800 600
        [FireCall.shoot 1000, FireCall.updateBullets, FireCall.updateBullets,
          FireCall.shoot 1400, FireCall.updateBullets] fireState)
      (runLater
        [FireCall.shoot 1000, FireCall.updateBullets, FireCall.updateBullets,
          FireCall.shoot 1400, FireCall.updateBullets] fireState) :=
  C20_pairs_agree_in_normal_mode 800 600 _ fireState rfl
    (by norm_num [fireState, initialState, PLAYER_HEIGHT])
    (by intro b hb; simp [fireState, initialState] at hb)

/-! ## Claim C21: the horizontal motion of zigzag enemies

The statements of this section are about `enemyStepRounded`, with a rounding `fl` of
which only what is true of binary64 arithmetic is assumed: `ExactOnBinary64 fl` (a
result that is a binary64 number is not changed) or `RoundsToNearest fl` (the result is a
nearest binary64 number).  The lemmas about `enemyStep` and `ZigzagOk` that come first
hold for exact arithmetic and are used where no result is rounded. -/

theorem enemyStep_const (W : ℚ) (e : Enemy) :
    (enemyStep W e).pattern = e.pattern ∧ (enemyStep W e).size = e.size ∧
      (enemyStep W e).speed = e.speed := by
  unfold enemyStep
  simp only []
  split_ifs <;> exact ⟨rfl, rfl, rfl⟩

theorem enemyStep_zigzag_right (W : ℚ) (e : Enemy) (hp : e.pattern = Pattern.zigzag)
    (hd : e.zigzagDirection = 1) :
    (enemyStep W e).x = e.x + e.speed ∧
      (enemyStep W e).zigzagDirection =
        if e.x + e.speed ≤ 0 ∨ e.x + e.speed + e.size ≥ W then -1 else 1 := by
  unfold enemyStep
  simp only [if_pos hp, hd, mul_one]
  split_ifs <;> simp

theorem enemyStep_zigzag_left (W : ℚ) (e : Enemy) (hp : e.pattern = Pattern.zigzag)
    (hd : e.zigzagDirection = -1) :
    (enemyStep W e).x = e.x - e.speed ∧
      (enemyStep W e).zigzagDirection =
        if e.x - e.speed ≤ 0 ∨ e.x - e.speed + e.size ≥ W then 1 else -1 := by
  unfold enemyStep
  simp only [if_pos hp, hd, mul_neg, mul_one, ← sub_eq_add_neg]
  split_ifs <;> simp

theorem enemyStep_zigzagOk (W : ℚ) (e : Enemy) (hp : e.pattern = Pattern.zigzag)
    (h : ZigzagOk W e) : ZigzagOk W (enemyStep W e) := by
  obtain ⟨hs, hW, hcase⟩ := h
  obtain ⟨_, hsize, hspeed⟩ := enemyStep_const W e
  unfold ZigzagOk
  rw [hsize, hspeed]
  refine ⟨hs, hW, ?_⟩
  rcases hcase with ⟨hd, hx1, hx2⟩ | ⟨hd, hx1, hx2⟩
  · obtain ⟨ex, ed⟩ := enemyStep_zigzag_right W e hp hd
    rw [ex, ed]
    by_cases hflip : e.x + e.speed ≤ 0 ∨ e.x + e.speed + e.size ≥ W
    · rw [if_pos hflip]
      right
      exact ⟨rfl, by linarith, by linarith⟩
    · rw [if_neg hflip]
      left
      rw [not_or, not_le, not_le] at hflip
      exact ⟨rfl, by linarith, by linarith [hflip.2]⟩
  · obtain ⟨ex, ed⟩ := enemyStep_zigzag_left W e hp hd
    rw [ex, ed]
    by_cases hflip : e.x - e.speed ≤ 0 ∨ e.x - e.speed + e.size ≥ W
    · rw [if_pos hflip]
      left
      exact ⟨rfl, by linarith, by linarith⟩
    · rw [if_neg hflip]
      right
      rw [not_or, not_le, not_le] at hflip
      exact ⟨rfl, by linarith [hflip.1], by linarith⟩

theorem zigzag_no_double_flip (W : ℚ) (e : Enemy) (hp : e.pattern = Pattern.zigzag)
    (h : ZigzagOk W e) : ¬ (flipsDirection W e ∧ flipsDirection W (enemyStep W e)) := by
  obtain ⟨hs, hW, hcase⟩ := h
  obtain ⟨hpat, hsize, hspeed⟩ := enemyStep_const W e
  have hp1 : (enemyStep W e).pattern = Pattern.zigzag := by rw [hpat]; exact hp
  unfold flipsDirection
  rintro ⟨h1, h2⟩
  rcases hcase with ⟨hd, hx1, hx2⟩ | ⟨hd, hx1, hx2⟩
  · obtain ⟨ex, ed⟩ := enemyStep_zigzag_right W e hp hd
    by_cases hflip : e.x + e.speed ≤ 0 ∨ e.x + e.speed + e.size ≥ W
    · rw [if_pos hflip] at ed
      obtain ⟨_, ed2⟩ := enemyStep_zigzag_left W (enemyStep W e) hp1 ed
      rw [ex, hsize, hspeed] at ed2
      have hno : ¬ (e.x + e.speed - e.speed ≤ 0 ∨ e.x + e.speed - e.speed + e.size ≥ W) := by
        rcases hflip with hf | hf
        · exfalso; linarith
        · rintro (hh | hh) <;> linarith
      rw [if_neg hno] at ed2
      exact h2 (by rw [ed2, ed])
    · rw [if_neg hflip] at ed
      exact h1 (by rw [ed, hd])
  · obtain ⟨ex, ed⟩ := enemyStep_zigzag_left W e hp hd
    by_cases hflip : e.x - e.speed ≤ 0 ∨ e.x - e.speed + e.size ≥ W
    · rw [if_pos hflip] at ed
      obtain ⟨_, ed2⟩ := enemyStep_zigzag_right W (enemyStep W e) hp1 ed
      rw [ex, hsize, hspeed] at ed2
      have hno : ¬ (e.x - e.speed + e.speed ≤ 0 ∨ e.x - e.speed + e.speed + e.size ≥ W) := by
        rcases hflip with hf | hf
        · rintro (hh | hh) <;> linarith
        · exfalso; linarith
      rw [if_neg hno] at ed2
      exact h2 (by rw [ed2, ed])
    · rw [if_neg hflip] at ed
      exact h1 (by rw [ed, hd])

theorem zigzagOk_bounds (W : ℚ) (e : Enemy) (h : ZigzagOk W e) :
    -e.speed < e.x ∧ e.x + e.size < W + e.speed ∧
      (e.zigzagDirection = 1 ∨ e.zigzagDirection = -1) := by
  obtain ⟨hs, hW, hcase⟩ := h
  rcases hcase with ⟨hd, hx1, hx2⟩ | ⟨hd, hx1, hx2⟩
  · exact ⟨hx1, by linarith, Or.inl hd⟩
  · exact ⟨by linarith, hx2, Or.inr hd⟩

theorem binary64_intCast (k : ℤ) (h : |k| < 2 ^ 53) : Binary64 (k : ℚ) :=
  ⟨k, 0, h, by norm_num, by norm_num, by simp⟩

theorem intCast_abs_le (k : ℤ) (h : |k| < 2 ^ 53) : |(k : ℚ)| ≤ 2 ^ 1023 := by
  have h1 : ((|k| : ℤ) : ℚ) < ((2 ^ 53 : ℤ) : ℚ) := Int.cast_lt.mpr h
  rw [Int.cast_abs] at h1
  have h2 : ((2 ^ 53 : ℤ) : ℚ) ≤ 2 ^ 1023 := by norm_num
  linarith

theorem roundsToNearest_exact (fl : ℚ → ℚ) (hfl : RoundsToNearest fl) (q : ℚ)
    (hq : Binary64 q) (hb : |q| ≤ 2 ^ 1023) : fl q = q := by
  have h := (hfl q hb).2 q hq
  rw [sub_self, abs_zero] at h
  exact sub_eq_zero.mp (abs_eq_zero.mp (le_antisymm h (abs_nonneg _)))

theorem roundsToNearest_intCast (fl : ℚ → ℚ) (hfl : RoundsToNearest fl) (k : ℤ)
    (h : |k| < 2 ^ 53) : fl (k : ℚ) = k :=
  roundsToNearest_exact fl hfl _ (binary64_intCast k h) (intCast_abs_le k h)

/-- Binary64 numbers of magnitude at least `2 ^ j` are multiples of `2 ^ (j - 52)`. -/
theorem binary64_spacing (r : ℚ) (hr : Binary64 r) (j p : ℕ) (hjp : j + p = 52)
    (hj : (2 : ℚ) ^ j ≤ |r|) : ∃ n : ℤ, r * 2 ^ p = n := by
  obtain ⟨m, e, hm, _, _, rfl⟩ := hr
  have hm1 : |(m : ℚ)| < 2 ^ (53 : ℤ) := by
    have h1 : ((|m| : ℤ) : ℚ) < ((2 ^ 53 : ℤ) : ℚ) := Int.cast_lt.mpr hm
    rw [Int.cast_abs] at h1
    have h2 : ((2 ^ 53 : ℤ) : ℚ) = 2 ^ (53 : ℤ) := by norm_num
    linarith
  have h2pos : ∀ z : ℤ, (0 : ℚ) < 2 ^ z := fun z => zpow_pos (by norm_num) z
  have he : (j : ℤ) ≤ e + 52 := by
    by_contra hlt
    push_neg at hlt
    have hlt2 : |(m : ℚ) * 2 ^ e| < 2 ^ (j : ℤ) := by
      rw [abs_mul, abs_of_pos (h2pos e)]
      calc |(m : ℚ)| * 2 ^ e < 2 ^ (53 : ℤ) * 2 ^ e := mul_lt_mul_of_pos_right hm1 (h2pos e)
        _ = 2 ^ (53 + e) := by rw [zpow_add₀ (by norm_num : (2 : ℚ) ≠ 0)]
        _ ≤ 2 ^ (j : ℤ) := zpow_le_zpow_right₀ (by norm_num) (by omega)
    rw [zpow_natCast] at hlt2
    linarith
  obtain ⟨i, hi⟩ := Int.eq_ofNat_of_zero_le (show 0 ≤ e + p by omega)
  refine ⟨m * 2 ^ i, ?_⟩
  rw [mul_assoc, ← zpow_natCast (2 : ℚ) p, ← zpow_add₀ (by norm_num : (2 : ℚ) ≠ 0), hi]
  push_cast
  rw [zpow_natCast]

/-- A binary64 number `t` that is nearer to `q` than half the spacing of the binary64
numbers around it is the rounding of `q`; `d` bounds the distance. -/
theorem roundsToNearest_eq (fl : ℚ → ℚ) (hfl : RoundsToNearest fl) (q t d : ℚ) (j p : ℕ)
    (N : ℤ) (hjp : j + p = 52) (hq : |q| ≤ 2 ^ 1023) (ht : Binary64 t)
    (htN : t * 2 ^ p = N) (hd : |t - q| ≤ d) (hj : (2 : ℚ) ^ j ≤ t - 2 * d)
    (hclose : 2 * d * 2 ^ p < 1) : fl q = t := by
  obtain ⟨hB, hN⟩ := hfl q hq
  have h1 := hN t ht
  have hdist : |fl q - t| ≤ 2 * d := by
    have h2 : |fl q - t| ≤ |fl q - q| + |q - t| := abs_sub_le _ _ _
    rw [abs_sub_comm q t] at h2
    linarith
  have hlow : t - 2 * d ≤ fl q := by
    have := neg_abs_le (fl q - t)
    linarith
  have hpos : (0 : ℚ) < 2 ^ j := pow_pos (by norm_num) j
  have habs : (2 : ℚ) ^ j ≤ |fl q| := by
    rw [abs_of_pos (by linarith)]
    linarith
  obtain ⟨n, hn⟩ := binary64_spacing (fl q) hB j p hjp habs
  have hp : (0 : ℚ) < 2 ^ p := pow_pos (by norm_num) p
  have hnN : |((n - N : ℤ) : ℚ)| < 1 := by
    push_cast
    rw [← hn, ← htN, ← sub_mul, abs_mul, abs_of_pos hp]
    calc |fl q - t| * 2 ^ p ≤ 2 * d * 2 ^ p := mul_le_mul_of_nonneg_right hdist (le_of_lt hp)
      _ < 1 := hclose
  have hz : n - N = 0 := by
    rw [← Int.cast_abs] at hnN
    have : |n - N| < 1 := by exact_mod_cast hnN
    exact Int.abs_lt_one_iff.mp this
  have hnN2 : (n : ℚ) = N := by exact_mod_cast sub_eq_zero.mp hz
  have : fl q * 2 ^ p = t * 2 ^ p := by rw [hn, htN, hnN2]
  exact mul_right_cancel₀ (ne_of_gt hp) this

theorem exactOnBinary64_of_int (fl : ℚ → ℚ) (hfl : ExactOnBinary64 fl) (q : ℚ)
    (hint : ∃ k : ℤ, q = k) (hlo : -2 ^ 53 < q) (hhi : q < 2 ^ 53) : fl q = q := by
  obtain ⟨k, rfl⟩ := hint
  apply hfl
  apply binary64_intCast
  rw [abs_lt]
  constructor
  · have : ((-2 ^ 53 : ℤ) : ℚ) < (k : ℚ) := by push_cast; exact hlo
    exact Int.cast_lt.mp this
  · have : (k : ℚ) < ((2 ^ 53 : ℤ) : ℚ) := by push_cast; exact hhi
    exact Int.cast_lt.mp this

theorem enemyStepRounded_const (fl : ℚ → ℚ) (W : ℚ) (e : Enemy) :
    (enemyStepRounded fl W e).pattern = e.pattern ∧ (enemyStepRounded fl W e).size = e.size ∧
      (enemyStepRounded fl W e).speed = e.speed := by
  unfold enemyStepRounded
  simp only []
  split_ifs <;> exact ⟨rfl, rfl, rfl⟩

theorem enemyStepRounded_id (W : ℚ) (e : Enemy) :
    enemyStepRounded (fun q => q) W e = enemyStep W e := rfl

theorem enemyStepRounded_zigzag_right (fl : ℚ → ℚ) (W : ℚ) (e : Enemy)
    (hp : e.pattern = Pattern.zigzag) (hd : e.zigzagDirection = 1) (x1 s1 : ℚ)
    (h1 : fl e.speed = e.speed) (h2 : fl (e.x + e.speed) = x1) (h3 : fl (x1 + e.size) = s1)
    (h4 : fl (-1) = -1) :
    (enemyStepRounded fl W e).x = x1 ∧
      (enemyStepRounded fl W e).zigzagDirection = if x1 ≤ 0 ∨ s1 ≥ W then -1 else 1 := by
  unfold enemyStepRounded
  simp only [if_pos hp, hd, mul_one, one_mul, h1, h2, h3, h4]
  split_ifs <;> simp

theorem enemyStepRounded_zigzag_left (fl : ℚ → ℚ) (W : ℚ) (e : Enemy)
    (hp : e.pattern = Pattern.zigzag) (hd : e.zigzagDirection = -1) (x1 s1 : ℚ)
    (h1 : fl (-e.speed) = -e.speed) (h2 : fl (e.x - e.speed) = x1)
    (h3 : fl (x1 + e.size) = s1) (h4 : fl 1 = 1) :
    (enemyStepRounded fl W e).x = x1 ∧
      (enemyStepRounded fl W e).zigzagDirection = if x1 ≤ 0 ∨ s1 ≥ W then 1 else -1 := by
  unfold enemyStepRounded
  simp only [if_pos hp, hd, mul_neg, mul_one, neg_neg, h1, ← sub_eq_add_neg, h2, h3, h4]
  split_ifs <;> simp

theorem enemyStepRounded_direction (fl : ℚ → ℚ) (W : ℚ) (e : Enemy) (hfl : ExactOnBinary64 fl)
    (h : e.zigzagDirection = 1 ∨ e.zigzagDirection = -1) :
    (enemyStepRounded fl W e).zigzagDirection = 1 ∨
      (enemyStepRounded fl W e).zigzagDirection = -1 := by
  have hone : fl 1 = 1 := by
    have := hfl _ (binary64_intCast 1 (by norm_num))
    simpa using this
  have hneg : fl (-1) = -1 := by
    have := hfl _ (binary64_intCast (-1) (by norm_num))
    simpa using this
  unfold enemyStepRounded
  simp only []
  rcases h with h | h <;> split_ifs <;> simp [h, hone, hneg]

theorem enemyStep_congr (W : ℚ) (e f : Enemy) (hp : e.pattern = f.pattern) (hx : e.x = f.x)
    (hd : e.zigzagDirection = f.zigzagDirection) (hsz : e.size = f.size)
    (hsp : e.speed = f.speed) :
    (enemyStep W e).x = (enemyStep W f).x ∧
      (enemyStep W e).zigzagDirection = (enemyStep W f).zigzagDirection := by
  unfold enemyStep
  simp only [hp, hx, hd, hsz, hsp]
  split_ifs <;> simp [hx, hd]

/-- Where the values are integers below `2 ^ 52`, the rounded callback computes the `x`
and the `zigzagDirection` of the exact one. -/
theorem enemyStepRounded_exact (fl : ℚ → ℚ) (W : ℚ) (e : Enemy) (hfl : ExactOnBinary64 fl)
    (hp : e.pattern = Pattern.zigzag) (hok : ZigzagOk W e) (hx : ∃ a : ℤ, e.x = a)
    (hsz : ∃ b : ℤ, e.size = b) (hsp : ∃ c : ℤ, e.speed = c) (hsize : 0 ≤ e.size)
    (hW : W ≤ 2 ^ 52) :
    (enemyStepRounded fl W e).x = (enemyStep W e).x ∧
      (enemyStepRounded fl W e).zigzagDirection = (enemyStep W e).zigzagDirection := by
  obtain ⟨hs, hroom, hcase⟩ := hok
  obtain ⟨a, ha⟩ := hx
  obtain ⟨b, hb⟩ := hsz
  obtain ⟨c, hc⟩ := hsp
  have hone : fl 1 = 1 := by
    have := hfl _ (binary64_intCast 1 (by norm_num))
    simpa using this
  have hneg : fl (-1) = -1 := by
    have := hfl _ (binary64_intCast (-1) (by norm_num))
    simpa using this
  have hbig : (2 : ℚ) ^ 52 < 2 ^ 53 := by norm_num
  rcases hcase with ⟨hd, hx1, hx2⟩ | ⟨hd, hx1, hx2⟩
  · have h1 : fl e.speed = e.speed :=
      exactOnBinary64_of_int fl hfl _ ⟨c, hc⟩ (by linarith) (by linarith)
    have h2 : fl (e.x + e.speed) = e.x + e.speed :=
      exactOnBinary64_of_int fl hfl _ ⟨a + c, by rw [ha, hc]; push_cast; rfl⟩ (by linarith)
        (by linarith)
    have h3 : fl (e.x + e.speed + e.size) = e.x + e.speed + e.size :=
      exactOnBinary64_of_int fl hfl _ ⟨a + c + b, by rw [ha, hb, hc]; push_cast; rfl⟩
        (by linarith) (by linarith)
    obtain ⟨rx, rd⟩ := enemyStepRounded_zigzag_right fl W e hp hd _ _ h1 h2 h3 hneg
    obtain ⟨ex, ed⟩ := enemyStep_zigzag_right W e hp hd
    exact ⟨by rw [rx, ex], by rw [rd, ed]⟩
  · have h1 : fl (-e.speed) = -e.speed :=
      exactOnBinary64_of_int fl hfl _ ⟨-c, by rw [hc]; push_cast; rfl⟩ (by linarith)
        (by linarith)
    have h2 : fl (e.x - e.speed) = e.x - e.speed :=
      exactOnBinary64_of_int fl hfl _ ⟨a - c, by rw [ha, hc]; push_cast; rfl⟩ (by linarith)
        (by linarith)
    have h3 : fl (e.x - e.speed + e.size) = e.x - e.speed + e.size :=
      exactOnBinary64_of_int fl hfl _ ⟨a - c + b, by rw [ha, hb, hc]; push_cast; rfl⟩
        (by linarith) (by linarith)
    obtain ⟨rx, rd⟩ := enemyStepRounded_zigzag_left fl W e hp hd _ _ h1 h2 h3 hone
    obtain ⟨ex, ed⟩ := enemyStep_zigzag_left W e hp hd
    exact ⟨by rw [rx, ex], by rw [rd, ed]⟩

theorem exactZigzag_step (fl : ℚ → ℚ) (W : ℚ) (e : Enemy) (hfl : ExactOnBinary64 fl)
    (hW : W ≤ 2 ^ 52) (h : ExactZigzag W e) :
    ExactZigzag W (enemyStepRounded fl W e) ∧
      ¬ (flipsDirectionRounded fl W e ∧
        flipsDirectionRounded fl W (enemyStepRounded fl W e)) := by
  obtain ⟨hp, hok, hsize, hx, hsz, hsp⟩ := h
  obtain ⟨rp, rsz, rsp⟩ := enemyStepRounded_const fl W e
  obtain ⟨cp, csz, csp⟩ := enemyStep_const W e
  obtain ⟨rx, rd⟩ := enemyStepRounded_exact fl W e hfl hp hok hx hsz hsp hsize hW
  have hok1 : ZigzagOk W (enemyStepRounded fl W e) := by
    have h1 := enemyStep_zigzagOk W e hp hok
    unfold ZigzagOk at h1 ⊢
    rw [rx, rd, rsz, rsp]
    rw [csz, csp] at h1
    exact h1
  have hx1 : ∃ a : ℤ, (enemyStepRounded fl W e).x = a := by
    obtain ⟨a, ha⟩ := hx
    obtain ⟨c, hc⟩ := hsp
    rw [rx]
    rcases hok.2.2 with ⟨hd, _, _⟩ | ⟨hd, _, _⟩
    · exact ⟨a + c, by rw [(enemyStep_zigzag_right W e hp hd).1, ha, hc]; push_cast; rfl⟩
    · exact ⟨a - c, by rw [(enemyStep_zigzag_left W e hp hd).1, ha, hc]; push_cast; rfl⟩
  have hnext : ExactZigzag W (enemyStepRounded fl W e) :=
    ⟨by rw [rp]; exact hp, hok1, by rw [rsz]; exact hsize, hx1, by rw [rsz]; exact hsz,
      by rw [rsp]; exact hsp⟩
  refine ⟨hnext, ?_⟩
  rintro ⟨f1, f2⟩
  obtain ⟨np, nok, nsize, nx, nsz, nsp⟩ := hnext
  obtain ⟨_, sd⟩ :=
    enemyStepRounded_exact fl W (enemyStepRounded fl W e) hfl np nok nx nsz nsp nsize hW
  obtain ⟨_, gd⟩ := enemyStep_congr W (enemyStepRounded fl W e) (enemyStep W e)
    (by rw [rp, cp]) rx rd (by rw [rsz, csz]) (by rw [rsp, csp])
  apply zigzag_no_double_flip W e hp hok
  unfold flipsDirectionRounded at f1 f2
  unfold flipsDirection
  constructor
  · rw [← rd]; exact f1
  · rw [← gd, ← sd, ← rd]; exact f2

theorem exactZigzag_iterate (fl : ℚ → ℚ) (W : ℚ) (e : Enemy) (hfl : ExactOnBinary64 fl)
    (hW : W ≤ 2 ^ 52) (h : ExactZigzag W e) :
    ∀ n : ℕ, ((enemyStepRounded fl W)^[n] e).size = e.size ∧
      ((enemyStepRounded fl W)^[n] e).speed = e.speed ∧
      ExactZigzag W ((enemyStepRounded fl W)^[n] e) := by
  intro n
  induction n with
  | zero => exact ⟨rfl, rfl, h⟩
  | succ n ih =>
    obtain ⟨isz, isp, iok⟩ := ih
    obtain ⟨_, csz, csp⟩ := enemyStepRounded_const fl W ((enemyStepRounded fl W)^[n] e)
    rw [Function.iterate_succ_apply']
    exact ⟨by rw [csz]; exact isz, by rw [csp]; exact isp,
      (exactZigzag_step fl W _ hfl hW iok).1⟩

/-- C21, as far as it holds.  The arithmetic of lines 498-504 is rounded by `fl`, of which
only this is assumed: it leaves binary64 numbers as they are.  An enemy that starts with
`zigzagDirection = 1`, as `spawnEnemy` sets it, has `zigzagDirection` 1 or -1 after any
number of calls that process it.  If it is a zigzag enemy whose `x`, `size ≥ 0` and
`speed > 0` are integers, in an arena `size + speed < W ≤ 2 ^ 52` (no sum of the callback
is rounded then), and it starts at `0 ≤ x < W - size`, then after any number of calls
that process it `-speed < x` and `x + size < W + speed`, and it does not flip on two
consecutive calls that process it. -/
theorem C21_zigzag_direction_and_exact_bounds (fl : ℚ → ℚ) (W : ℚ) (e : Enemy)
    (hfl : ExactOnBinary64 fl) (hd : e.zigzagDirection = 1) :
    (∀ n : ℕ, ((enemyStepRounded fl W)^[n] e).zigzagDirection = 1 ∨
        ((enemyStepRounded fl W)^[n] e).zigzagDirection = -1) ∧
      (e.pattern = Pattern.zigzag →
        (∃ a b c : ℤ, e.x = a ∧ e.size = b ∧ e.speed = c) →
        0 ≤ e.size → W ≤ 2 ^ 52 → 0 ≤ e.x → e.x < W - e.size → 0 < e.speed →
        W > e.size + e.speed →
        ∀ n : ℕ,
          -e.speed < ((enemyStepRounded fl W)^[n] e).x ∧
            ((enemyStepRounded fl W)^[n] e).x + e.size < W + e.speed ∧
            ¬ (flipsDirectionRounded fl W ((enemyStepRounded fl W)^[n] e) ∧
              flipsDirectionRounded fl W ((enemyStepRounded fl W)^[n + 1] e))) := by
  constructor
  · intro n
    induction n with
    | zero => exact Or.inl hd
    | succ n ih =>
      rw [Function.iterate_succ_apply']
      exact enemyStepRounded_direction fl W _ hfl ih
  · rintro hp ⟨a, b, c, ha, hb, hc⟩ hsize hW hx0 hx1 hspeed hroom n
    have hstart : ExactZigzag W e :=
      ⟨hp, ⟨hspeed, by linarith, Or.inl ⟨hd, by linarith, by linarith⟩⟩, hsize, ⟨a, ha⟩,
        ⟨b, hb⟩, ⟨c, hc⟩⟩
    obtain ⟨isz, isp, iok⟩ := exactZigzag_iterate fl W e hfl hW hstart n
    obtain ⟨b1, b2, _⟩ := zigzagOk_bounds W _ iok.2.1
    rw [isz, isp] at b2
    rw [isp] at b1
    refine ⟨b1, b2, ?_⟩
    rw [Function.iterate_succ_apply']
    exact (exactZigzag_step fl W _ hfl hW iok).2

/-- C21 at `zigzagSpawn`, the enemy spawned on an 800 wide canvas at x = 385 with size 30
and speed 1, with arithmetic that rounds nothing. -/
theorem C21_zigzag_direction_and_exact_bounds_witness :
    ExactOnBinary64 (fun q => q) ∧ zigzagSpawn.zigzagDirection = 1 ∧
      (∀ n : ℕ, ((enemyStepRounded (fun q => q) 800)^[n] zigzagSpawn).zigzagDirection = 1 ∨
        ((enemyStepRounded (fun q => q) 800)^[n] zigzagSpawn).zigzagDirection = -1) ∧
      (∀ n : ℕ,
        -zigzagSpawn.speed < ((enemyStepRounded (fun q => q) 800)^[n] zigzagSpawn).x ∧
          ((enemyStepRounded (fun q => q) 800)^[n] zigzagSpawn).x + zigzagSpawn.size <
            800 + zigzagSpawn.speed ∧
          ¬ (flipsDirectionRounded (fun q => q) 800
                ((enemyStepRounded (fun q => q) 800)^[n] zigzagSpawn) ∧
              flipsDirectionRounded (fun q => q) 800
                ((enemyStepRounded (fun q => q) 800)^[n + 1] zigzagSpawn))) :=
  ⟨fun _ _ => rfl, rfl,
    (C21_zigzag_direction_and_exact_bounds (fun q => q) 800 zigzagSpawn (fun _ _ => rfl) rfl).1,
    (C21_zigzag_direction_and_exact_bounds (fun q => q) 800 zigzagSpawn (fun _ _ => rfl) rfl).2
      rfl ⟨385, 30, 1, by norm_num [zigzagSpawn]⟩ (by norm_num [zigzagSpawn]) (by norm_num)
      (by norm_num [zigzagSpawn]) (by norm_num [zigzagSpawn]) (by norm_num [zigzagSpawn])
      (by norm_num [zigzagSpawn])⟩

theorem binary64_finite : {r : ℚ | Binary64 r}.Finite := by
  apply Set.Finite.subset
    (((Set.finite_Icc (-(2 ^ 53) : ℤ) (2 ^ 53)).prod (Set.finite_Icc (-1074 : ℤ) 971)).image
      (fun p : ℤ × ℤ => (p.1 : ℚ) * (2 : ℚ) ^ p.2))
  rintro r ⟨m, e, hm, h1, h2, rfl⟩
  rw [abs_lt] at hm
  exact ⟨(m, e), ⟨⟨le_of_lt hm.1, le_of_lt hm.2⟩, ⟨h1, h2⟩⟩, rfl⟩

/-- A rounding as assumed exists: the binary64 numbers are finitely many, so every
rational has a nearest one. -/
theorem roundsToNearest_exists : ∃ fl : ℚ → ℚ, RoundsToNearest fl ∧ ExactOnBinary64 fl := by
  have key : ∀ q : ℚ, ∃ r : ℚ, Binary64 r ∧ ∀ s : ℚ, Binary64 s → |r - q| ≤ |s - q| := by
    intro q
    have h0 : Binary64 0 := by simpa using binary64_intCast 0 (by norm_num)
    obtain ⟨r, hr, hmin⟩ :=
      Set.exists_min_image {r : ℚ | Binary64 r} (fun r : ℚ => |r - q|) binary64_finite ⟨0, h0⟩
    exact ⟨r, hr, fun s hs => hmin s hs⟩
  choose f hf using key
  refine ⟨f, fun q _ => ⟨(hf q).1, (hf q).2⟩, fun q hq => ?_⟩
  have h := (hf q).2 q hq
  rw [sub_self, abs_zero] at h
  exact sub_eq_zero.mp (abs_eq_zero.mp (le_antisymm h (abs_nonneg _)))

theorem wallEnemy_flips_twice (fl : ℚ → ℚ) (hfl : ExactOnBinary64 fl) :
    ¬ ((enemyStepRounded fl 800 wallEnemy).x + wallEnemy.size < 800 + wallEnemy.speed) ∧
      flipsDirectionRounded fl 800 wallEnemy ∧
      flipsDirectionRounded fl 800 (enemyStepRounded fl 800 wallEnemy) := by
  have hint : ∀ k : ℤ, |k| < 2 ^ 53 → fl (k : ℚ) = k := fun k hk =>
    hfl _ (binary64_intCast k hk)
  have f1 : fl 1 = 1 := by simpa using hint 1 (by norm_num)
  have fm1 : fl (-1) = -1 := by simpa using hint (-1) (by norm_num)
  have f770 : fl 770 = 770 := by simpa using hint 770 (by norm_num)
  have f771 : fl 771 = 771 := by simpa using hint 771 (by norm_num)
  have f800 : fl 800 = 800 := by simpa using hint 800 (by norm_num)
  have f801 : fl 801 = 801 := by simpa using hint 801 (by norm_num)
  obtain ⟨cp, csz, csp⟩ := enemyStepRounded_const fl 800 wallEnemy
  obtain ⟨x1, d1⟩ := enemyStepRounded_zigzag_right fl 800 wallEnemy rfl rfl 771 801
    (by simpa [wallEnemy] using f1) (by norm_num [wallEnemy]; exact f771)
    (by norm_num [wallEnemy]; exact f801) fm1
  rw [if_pos (Or.inr (by norm_num))] at d1
  obtain ⟨_, d2⟩ := enemyStepRounded_zigzag_left fl 800 (enemyStepRounded fl 800 wallEnemy)
    (by rw [cp]; rfl) d1 770 800
    (by rw [csp]; simpa [wallEnemy] using fm1)
    (by rw [x1, csp]; norm_num [wallEnemy]; exact f770)
    (by rw [csz]; norm_num [wallEnemy]; exact f800) f1
  rw [if_pos (Or.inr (by norm_num))] at d2
  refine ⟨by rw [x1]; norm_num [wallEnemy], ?_, ?_⟩
  · unfold flipsDirectionRounded
    rw [d1]
    norm_num [wallEnemy]
  · unfold flipsDirectionRounded
    rw [d2, d1]
    norm_num

theorem stickyAt_step (fl : ℚ → ℚ) (hfl : RoundsToNearest fl) (e : Enemy) (h : StickyAt e) :
    StickyAt (enemyStepRounded fl 300 e) ∧ flipsDirectionRounded fl 300 e := by
  obtain ⟨hp, hsz, hsp, hcase⟩ := h
  obtain ⟨cp, csz, csp⟩ := enemyStepRounded_const fl 300 e
  have hint : ∀ k : ℤ, |k| < 2 ^ 53 → fl (k : ℚ) = k := roundsToNearest_intCast fl hfl
  have f1 : fl 1 = 1 := by simpa using hint 1 (by norm_num)
  have fm1 : fl (-1) = -1 := by simpa using hint (-1) (by norm_num)
  have f300 : fl 300 = 300 := by simpa using hint 300 (by norm_num)
  have f301 : fl 301 = 301 := by simpa using hint 301 (by norm_num)
  have b256 : Binary64 256 := by simpa using binary64_intCast 256 (by norm_num)
  have b257 : Binary64 257 := by simpa using binary64_intCast 257 (by norm_num)
  have bs : Binary64 (1 + 1 / 2 ^ 52) :=
    ⟨2 ^ 52 + 1, -52, by norm_num, by norm_num, by norm_num, by norm_num⟩
  have bns : Binary64 (-(1 + 1 / 2 ^ 52)) :=
    ⟨-(2 ^ 52 + 1), -52, by norm_num, by norm_num, by norm_num, by norm_num⟩
  have fs : fl (1 + 1 / 2 ^ 52) = 1 + 1 / 2 ^ 52 :=
    roundsToNearest_exact fl hfl _ bs (abs_le.mpr ⟨by norm_num, by norm_num⟩)
  have fns : fl (-(1 + 1 / 2 ^ 52)) = -(1 + 1 / 2 ^ 52) :=
    roundsToNearest_exact fl hfl _ bns (abs_le.mpr ⟨by norm_num, by norm_num⟩)
  have r1 : fl (256 - 1 / 2 ^ 45 + (1 + 1 / 2 ^ 52)) = 257 :=
    roundsToNearest_eq fl hfl _ 257 (1 / 2 ^ 45 - 1 / 2 ^ 52) 8 44 (257 * 2 ^ 44) rfl
      (abs_le.mpr ⟨by norm_num, by norm_num⟩) b257 (by norm_num)
      (abs_le.mpr ⟨by norm_num, by norm_num⟩) (by norm_num) (by norm_num)
  have r2 : fl (256 + (1 + 1 / 2 ^ 52)) = 257 :=
    roundsToNearest_eq fl hfl _ 257 (1 / 2 ^ 52) 8 44 (257 * 2 ^ 44) rfl
      (abs_le.mpr ⟨by norm_num, by norm_num⟩) b257 (by norm_num)
      (abs_le.mpr ⟨by norm_num, by norm_num⟩) (by norm_num) (by norm_num)
  have r3 : fl (257 - (1 + 1 / 2 ^ 52)) = 256 :=
    roundsToNearest_eq fl hfl _ 256 (1 / 2 ^ 52) 7 45 (256 * 2 ^ 45) rfl
      (abs_le.mpr ⟨by norm_num, by norm_num⟩) b256 (by norm_num)
      (abs_le.mpr ⟨by norm_num, by norm_num⟩) (by norm_num) (by norm_num)
  have right : e.zigzagDirection = 1 → fl (e.x + e.speed) = 257 →
      StickyAt (enemyStepRounded fl 300 e) ∧ flipsDirectionRounded fl 300 e := by
    intro hd h2
    obtain ⟨x1, d1⟩ := enemyStepRounded_zigzag_right fl 300 e hp hd 257 301
      (by rw [hsp]; exact fs) h2 (by rw [hsz]; norm_num; exact f301) fm1
    rw [if_pos (Or.inr (by norm_num))] at d1
    refine ⟨⟨by rw [cp]; exact hp, by rw [csz]; exact hsz, by rw [csp]; exact hsp,
      Or.inr ⟨d1, x1⟩⟩, ?_⟩
    unfold flipsDirectionRounded
    rw [d1, hd]
    norm_num
  rcases hcase with ⟨hd, hx | hx⟩ | ⟨hd, hx⟩
  · exact right hd (by rw [hx, hsp]; exact r1)
  · exact right hd (by rw [hx, hsp]; exact r2)
  · obtain ⟨x1, d1⟩ := enemyStepRounded_zigzag_left fl 300 e hp hd 256 300
      (by rw [hsp]; exact fns) (by rw [hx, hsp]; exact r3)
      (by rw [hsz]; norm_num; exact f300) f1
    rw [if_pos (Or.inr (by norm_num))] at d1
    refine ⟨⟨by rw [cp]; exact hp, by rw [csz]; exact hsz, by rw [csp]; exact hsp,
      Or.inl ⟨d1, Or.inr x1⟩⟩, ?_⟩
    unfold flipsDirectionRounded
    rw [d1, hd]
    norm_num

theorem stickyAt_iterate (fl : ℚ → ℚ) (hfl : RoundsToNearest fl) :
    ∀ n : ℕ, StickyAt ((enemyStepRounded fl 300)^[n] stickyEnemy) := by
  intro n
  induction n with
  | zero => exact ⟨rfl, rfl, rfl, Or.inl ⟨rfl, Or.inl rfl⟩⟩
  | succ n ih =>
    rw [Function.iterate_succ_apply']
    exact (stickyAt_step fl hfl _ ih).1

/-- C21 is false as stated, at two enemies with `zigzagDirection = 1`, `speed > 0` and
`WIDTH > size + speed`.  `wallEnemy` starts at `x = WIDTH - size`: whatever the rounding
(its values are small integers), the first call leaves it at `x + size = WIDTH + speed`
and flips it, and the second call flips it again.  `stickyEnemy` starts strictly inside,
`0 ≤ x < WIDTH - size`, and is the enemy that `spawnEnemy` pushes for the draws 0.7,
`1 - 2 ^ -53` and `5 * 2 ^ -54`: under every rounding to nearest (there is one) it
flips on every call that processes it, because `x + speed` is rounded up to 257 and
`257 - speed` is rounded up to 256, where `x + size = WIDTH`. -/
theorem C21_zigzag_flips_on_consecutive_calls :
    (wallEnemy.pattern = Pattern.zigzag ∧ wallEnemy.zigzagDirection = 1 ∧ 0 ≤ wallEnemy.x ∧
        wallEnemy.x ≤ 800 - wallEnemy.size ∧ 0 < wallEnemy.speed ∧
        800 > wallEnemy.size + wallEnemy.speed) ∧
      (∀ fl : ℚ → ℚ, ExactOnBinary64 fl →
        ¬ ((enemyStepRounded fl 800 wallEnemy).x + wallEnemy.size < 800 + wallEnemy.speed) ∧
          flipsDirectionRounded fl 800 wallEnemy ∧
          flipsDirectionRounded fl 800 (enemyStepRounded fl 800 wallEnemy)) ∧
      (spawnEnemy 300 1 (7 / 10) (1 - 1 / 2 ^ 53) (5 / 2 ^ 54) (initialState 300 150)).enemies =
        [stickyEnemy] ∧
      (stickyEnemy.pattern = Pattern.zigzag ∧ stickyEnemy.zigzagDirection = 1 ∧
        0 ≤ stickyEnemy.x ∧ stickyEnemy.x < 300 - stickyEnemy.size ∧ 0 < stickyEnemy.speed ∧
        300 > stickyEnemy.size + stickyEnemy.speed) ∧
      (∃ fl : ℚ → ℚ, RoundsToNearest fl ∧ ExactOnBinary64 fl) ∧
      (∀ fl : ℚ → ℚ, RoundsToNearest fl → ∀ n : ℕ,
        flipsDirectionRounded fl 300 ((enemyStepRounded fl 300)^[n] stickyEnemy)) := by
  refine ⟨?_, wallEnemy_flips_twice, ?_, ?_, roundsToNearest_exists, ?_⟩
  · norm_num [wallEnemy]
  · simp [spawnEnemy, initialState, enemyTypes, randomRange, stickyEnemy]
    norm_num
  · norm_num [stickyEnemy]
  · intro fl hfl n
    exact (stickyAt_step fl hfl _ (stickyAt_iterate fl hfl n)).2
